import Mathlib

/-!
# Orbital demo: the event handler of `main.c`

A shallow embedding of `SDL_AppEvent` (and of `refresh_warp_buf`) from
`src/src/main.c`.  The handler of `src/main.c` is the same code without the
`warp_factor` / `refresh_warp_buf` lines.

Conventions of the embedding:

* `K` is an ordered field standing for the real numbers; the definitions are
  executable for `K = ℚ` and the statements that involve the square root are
  read at `K = ℝ`;
* arithmetic is exact: rounding is not modelled;
* the two scalars the handler scales again and again, `delta_time_scale` and
  `zoom`, are IEEE doubles without rounding (`Double`): a finite value, an
  infinity or NaN, and a result whose magnitude reaches `2 ^ 1024 - 2 ^ 970`
  overflows to an infinity;
* positions, velocities and event coordinates are finite numbers; the click
  branch returns `none` as soon as it divides by zero or the world position
  of the click is no finite vector (C yields infinities or NaN there);
* which keys are held is read off the event sequence (`heldAfter`), the
  handler keeps its own flags in `key_state`;
* `unsigned` is a natural number reduced modulo `2 ^ 32`;
* a pointer to an object is the object it points to.
-/

namespace OrbitalDemo

/-! ## Scalars -/

/-- An IEEE double without rounding: a finite number, plus or minus
infinity, or NaN.  Zero carries no sign. -/
inductive Double (K : Type) where
  | fin (q : K)
  | pinf
  | ninf
  | nan
deriving DecidableEq

section Scalars

variable {K : Type} [LinearOrderedField K]

/-- The least magnitude that rounds to an infinity: `2 ^ 1024 - 2 ^ 970`,
half an ulp above the largest finite double. -/
def DBL_OVERFLOW : K := 2 ^ 1024 - 2 ^ 970

/-- The double holding the exact result `q` of an operation: `q` itself, or
an infinity when `q` is out of range. -/
def Double.ofExact (q : K) : Double K :=
  if DBL_OVERFLOW ≤ q then Double.pinf
  else if q ≤ -DBL_OVERFLOW then Double.ninf
  else Double.fin q

/-- The product `a * b` of two doubles. -/
def Double.mul : Double K → Double K → Double K
  | .nan, _ => .nan
  | _, .nan => .nan
  | .fin a, .fin b => Double.ofExact (a * b)
  | .fin a, .pinf => if 0 < a then .pinf else if a < 0 then .ninf else .nan
  | .fin a, .ninf => if 0 < a then .ninf else if a < 0 then .pinf else .nan
  | .pinf, .fin b => if 0 < b then .pinf else if b < 0 then .ninf else .nan
  | .ninf, .fin b => if 0 < b then .ninf else if b < 0 then .pinf else .nan
  | .pinf, .pinf => .pinf
  | .pinf, .ninf => .ninf
  | .ninf, .pinf => .ninf
  | .ninf, .ninf => .pinf

/-- The sum `a + b` of two doubles. -/
def Double.add : Double K → Double K → Double K
  | .nan, _ => .nan
  | _, .nan => .nan
  | .fin a, .fin b => Double.ofExact (a + b)
  | .fin _, .pinf => .pinf
  | .fin _, .ninf => .ninf
  | .pinf, .fin _ => .pinf
  | .ninf, .fin _ => .ninf
  | .pinf, .pinf => .pinf
  | .ninf, .ninf => .ninf
  | .pinf, .ninf => .nan
  | .ninf, .pinf => .nan

/-- The quotient `a / b` of two doubles; a zero divisor counts as `+0`. -/
def Double.div : Double K → Double K → Double K
  | .nan, _ => .nan
  | _, .nan => .nan
  | .fin a, .fin b =>
    if b = 0 then (if a = 0 then .nan else if 0 < a then .pinf else .ninf)
    else Double.ofExact (a / b)
  | .fin _, .pinf => .fin 0
  | .fin _, .ninf => .fin 0
  | .pinf, .fin b => if 0 ≤ b then .pinf else .ninf
  | .ninf, .fin b => if 0 ≤ b then .ninf else .pinf
  | .pinf, .pinf => .nan
  | .pinf, .ninf => .nan
  | .ninf, .pinf => .nan
  | .ninf, .ninf => .nan

/-- The comparison `a < b` of two doubles; false as soon as one is NaN. -/
def Double.lt : Double K → Double K → Bool
  | .nan, _ => false
  | _, .nan => false
  | .fin a, .fin b => decide (a < b)
  | .fin _, .pinf => true
  | .fin _, .ninf => false
  | .pinf, _ => false
  | .ninf, .fin _ => true
  | .ninf, .pinf => true
  | .ninf, .ninf => false

/-- The double `x` is at least the number `c`: it is plus infinity or a finite
value not below `c` (NaN is not). -/
def Double.atLeast (c : K) (x : Double K) : Prop :=
  x = Double.pinf ∨ ∃ q, x = Double.fin q ∧ c ≤ q

end Scalars

/-! ## Data model (`game.h` is not part of the sources; the types are read off
the field accesses in `main.c` and section 3 of the specification) -/

/-- Modelled from the spec: `Vector2D`, an ordered pair (x, y) of scalars. -/
structure Vector2D (K : Type) where
  x : K
  y : K
deriving DecidableEq

/-- Modelled from the spec: the body part of an object (`obj->rbody`). -/
structure Game_RigidBody (K : Type) where
  mass : K
  pos : Vector2D K
  vel : Vector2D K
deriving DecidableEq

/-- Modelled from the spec: material kinds; `main.c` only uses the sprite kind. -/
inductive Game_MaterialType where
  | GAME_MATERIALTYPE_NONE
  | GAME_MATERIALTYPE_SPRITE
deriving DecidableEq

/-- Modelled from the spec: material reference; a texture is a handle. -/
structure Game_Material where
  type : Game_MaterialType
  texture : Nat
deriving DecidableEq

/-- Modelled from the spec: simulated object (`Game_Object`). -/
structure Game_Object (K : Type) where
  rbody : Game_RigidBody K
  material : Game_Material
  size : Vector2D K
deriving DecidableEq

/-- Modelled from the spec: camera (`game->cam`). -/
structure Game_Camera (K : Type) where
  pos : Vector2D K
  vel : Vector2D K
  zoom : Double K
deriving DecidableEq

/-- Modelled from the spec: the key-hold flags (`game->key_state`). -/
structure Game_KeyState where
  left : Bool
  right : Bool
  up : Bool
  down : Bool
deriving DecidableEq

/-- The window, as far as the core sees it: its size in pixels. -/
structure SDL_Window where
  w : Int
  h : Int
deriving DecidableEq

/-- Modelled from the spec: application state (`Game_AppState`), restricted to
the fields `main.c` touches. -/
structure Game_AppState (K : Type) where
  cam : Game_Camera K
  key_state : Game_KeyState
  delta_time_scale : Double K
  window : SDL_Window
  objects : List (Game_Object K)
deriving DecidableEq

/-- The file-scope variables of `main.c` together with the application state
the handler receives through `appstate`. -/
structure Globals (K : Type) where
  game : Game_AppState K
  earth_ref : Game_Object K
  moon_ref : Game_Object K
  warp_factor : Nat
  warp_buf : Option String
deriving DecidableEq

/-- Key codes the handler distinguishes; every other key is `SDLK_OTHER`. -/
inductive SDL_Keycode where
  | SDLK_PERIOD | SDLK_COMMA | SDLK_Q
  | SDLK_A | SDLK_LEFT | SDLK_D | SDLK_RIGHT
  | SDLK_S | SDLK_DOWN | SDLK_W | SDLK_UP
  | SDLK_OTHER
deriving DecidableEq

/-- Events the handler distinguishes, with the payload it reads. -/
inductive SDL_Event (K : Type) where
  | SDL_EVENT_KEY_DOWN (key : SDL_Keycode)
  | SDL_EVENT_KEY_UP (key : SDL_Keycode)
  | SDL_EVENT_MOUSE_BUTTON_DOWN (x y : K)
  | SDL_EVENT_QUIT
  | SDL_EVENT_GAMEPAD_BUTTON_DOWN
  | SDL_EVENT_MOUSE_WHEEL (x y : K)
  | SDL_EVENT_OTHER
deriving DecidableEq

/-- Result of an SDL application callback. -/
inductive SDL_AppResult where
  | SDL_APP_CONTINUE
  | SDL_APP_SUCCESS
  | SDL_APP_FAILURE
deriving DecidableEq

open SDL_Keycode SDL_Event SDL_AppResult

section Model

variable {K : Type} [LinearOrderedField K]

/-! ## Constants of `main.c` -/

/-- Constant `constexpr double moon_init_speed = 0.0001;`. -/
def moon_init_speed : K := 0.0001

/-- Constant `constexpr double moon_dist = 400;`. -/
def moon_dist : K := 400

/-- Constant `constexpr double min_zoom = 0.001;`, local to the wheel branch. -/
def min_zoom : K := 0.001

/-- Width of `unsigned`. -/
def UINT_MODULUS : Nat := 2 ^ 32

/-! ## Helpers of `game.c` (not part of the sources) -/

/-- Modelled from the spec: `diff(a,b) = a - b` (`Vector2D_Diff`). -/
def Vector2D_Diff (a b : Vector2D K) : Vector2D K :=
  { x := a.x - b.x, y := a.y - b.y }

/-- Modelled from the spec: `scale(v, k)` (`Vector2D_Scaled`). -/
def Vector2D_Scaled (v : Vector2D K) (k : K) : Vector2D K :=
  { x := v.x * k, y := v.y * k }

/-- Modelled from the spec: `magnitude(v) = sqrt(x²+y²)` (`Vector2D_Abs`).
The square root of the C library is the parameter `sqrt`. -/
def Vector2D_Abs (sqrt : K → K) (v : Vector2D K) : K :=
  sqrt (v.x * v.x + v.y * v.y)

/-- Modelled from the spec: `Game_Object_Create`, a body with zero velocity
and placeholder mass; the click branch overwrites every field read later. -/
def Game_Object_Create : Game_Object K :=
  { rbody := { mass := 0, pos := ⟨0, 0⟩, vel := ⟨0, 0⟩ }
    material := { type := Game_MaterialType.GAME_MATERIALTYPE_NONE, texture := 0 }
    size := ⟨0, 0⟩ }

/-- Modelled from the spec: `add(object)` appends a fully-constructed object
to the registry (`Game_AddObject`). -/
def Game_AddObject (game : Game_AppState K) (obj : Game_Object K) : Game_AppState K :=
  { game with objects := game.objects ++ [obj] }

/-- The C expression `a / b` on finite numbers: `none` when the divisor is
zero. -/
def fdiv (a b : K) : Option K :=
  if b = 0 then none else some (a / b)

/-! ## `main.c` -/

/-- Function `refresh_warp_buf`: allocate or clear the buffer, then
`sprintf(warp_buf, "Time Warp: %ux", warp_factor)`. -/
def refresh_warp_buf (g : Globals K) : Globals K :=
  let text := "Time Warp: " ++ toString g.warp_factor ++ "x"
  match g.warp_buf with
  | none => { g with warp_buf := some text }
  | some _ => { g with warp_buf := some text }

/-- The key-down branch of `SDL_AppEvent`. -/
def onKeyDown (g : Globals K) (key : SDL_Keycode) : SDL_AppResult × Globals K :=
  let game := g.game
  match key with
  | SDLK_PERIOD =>
    let g1 := { g with
      game := { game with delta_time_scale := Double.mul game.delta_time_scale (Double.fin 2) }
      warp_factor := (g.warp_factor <<< 1) % UINT_MODULUS }
    (SDL_APP_CONTINUE, refresh_warp_buf g1)
  | SDLK_COMMA =>
    let d := Double.div game.delta_time_scale (Double.fin 2)
    let g1 :=
      if Double.lt d (Double.fin 0.001) then
        { g with game := { game with delta_time_scale := Double.fin 0.001 } }
      else
        { g with
          game := { game with delta_time_scale := d }
          warp_factor := g.warp_factor >>> 1 }
    (SDL_APP_CONTINUE, refresh_warp_buf g1)
  | SDLK_Q => (SDL_APP_SUCCESS, g)
  | SDLK_A | SDLK_LEFT =>
    (SDL_APP_CONTINUE, { g with game := { game with
      key_state := { game.key_state with left := true }
      cam := { game.cam with vel := { game.cam.vel with x := -1 } } } })
  | SDLK_D | SDLK_RIGHT =>
    (SDL_APP_CONTINUE, { g with game := { game with
      key_state := { game.key_state with right := true }
      cam := { game.cam with vel := { game.cam.vel with x := 1 } } } })
  | SDLK_S | SDLK_DOWN =>
    (SDL_APP_CONTINUE, { g with game := { game with
      key_state := { game.key_state with down := true }
      cam := { game.cam with vel := { game.cam.vel with y := 1 } } } })
  | SDLK_W | SDLK_UP =>
    (SDL_APP_CONTINUE, { g with game := { game with
      key_state := { game.key_state with up := true }
      cam := { game.cam with vel := { game.cam.vel with y := -1 } } } })
  | SDLK_OTHER => (SDL_APP_CONTINUE, g)

/-- The key-up branch of `SDL_AppEvent`. -/
def onKeyUp (g : Globals K) (key : SDL_Keycode) : SDL_AppResult × Globals K :=
  let game := g.game
  match key with
  | SDLK_A | SDLK_LEFT =>
    let ks := { game.key_state with left := false }
    let vel := if !ks.right then { game.cam.vel with x := 0 } else game.cam.vel
    (SDL_APP_CONTINUE, { g with game := { game with
      key_state := ks, cam := { game.cam with vel := vel } } })
  | SDLK_D | SDLK_RIGHT =>
    let ks := { game.key_state with right := false }
    let vel := if !ks.left then { game.cam.vel with x := 0 } else game.cam.vel
    (SDL_APP_CONTINUE, { g with game := { game with
      key_state := ks, cam := { game.cam with vel := vel } } })
  | SDLK_S | SDLK_DOWN =>
    let ks := { game.key_state with down := false }
    let vel := if !ks.up then { game.cam.vel with y := 0 } else game.cam.vel
    (SDL_APP_CONTINUE, { g with game := { game with
      key_state := ks, cam := { game.cam with vel := vel } } })
  | SDLK_W | SDLK_UP =>
    let ks := { game.key_state with up := false }
    let vel := if !ks.down then { game.cam.vel with y := 0 } else game.cam.vel
    (SDL_APP_CONTINUE, { g with game := { game with
      key_state := ks, cam := { game.cam with vel := vel } } })
  | _ => (SDL_APP_CONTINUE, g)

/-- The mouse-wheel branch of `SDL_AppEvent`; `wheel_y` is the finite float
`event->wheel.y`. -/
def onMouseWheel (g : Globals K) (wheel_y : K) : SDL_AppResult × Globals K :=
  let amt := Double.mul (Double.mul (Double.fin wheel_y) g.game.cam.zoom) (Double.fin 0.5)
  let zoom := Double.add g.game.cam.zoom amt
  let zoom := if Double.lt zoom (Double.fin min_zoom) then Double.fin min_zoom else zoom
  (SDL_APP_CONTINUE, { g with game := { g.game with cam := { g.game.cam with zoom := zoom } } })

section Handler

/- The square root of the C library and `Game_GetGameCoords` of `game.c`
(screen position to world position; `none` when the result is no finite
vector) are parameters of the handler. -/
variable (sqrt : K → K)
variable (Game_GetGameCoords : Game_Camera K → SDL_Window → Vector2D K → Option (Vector2D K))

/-- The mouse-button-down branch of `SDL_AppEvent`: spawn a body at the click.
`none` when one of the two divisions has a zero divisor. -/
def onMouseButtonDown (g : Globals K) (x y : K) : Option (SDL_AppResult × Globals K) := do
  let mouse_pos : Vector2D K := { x := x, y := y }
  let mouse_pos_game_coords ← Game_GetGameCoords g.game.cam g.game.window mouse_pos
  let r := Vector2D_Diff mouse_pos_game_coords g.earth_ref.rbody.pos
  let tangent_r : Vector2D K := { x := r.y, y := -r.x }
  let inv_abs ← fdiv 1 (Vector2D_Abs sqrt tangent_r)
  let tangent_r_norm := Vector2D_Scaled tangent_r inv_abs
  let dist := Vector2D_Abs sqrt r
  let ratio ← fdiv moon_dist dist
  let obj : Game_Object K := Game_Object_Create
  let obj := { obj with rbody := { obj.rbody with pos := mouse_pos_game_coords } }
  let obj := { obj with rbody := { obj.rbody with mass := g.moon_ref.rbody.mass } }
  let obj := { obj with rbody := { obj.rbody with
    vel := Vector2D_Scaled tangent_r_norm (moon_init_speed * ratio) } }
  let obj := { obj with material := { obj.material with
    texture := g.moon_ref.material.texture } }
  let obj := { obj with material := { obj.material with
    type := Game_MaterialType.GAME_MATERIALTYPE_SPRITE } }
  let obj := { obj with size := g.moon_ref.size }
  pure (SDL_APP_CONTINUE, { g with game := Game_AddObject g.game obj })

/-- Function `SDL_AppEvent` of `src/src/main.c`: dispatch on the event type. -/
def SDL_AppEvent (g : Globals K) (event : SDL_Event K) : Option (SDL_AppResult × Globals K) :=
  match event with
  | SDL_EVENT_KEY_DOWN key => some (onKeyDown g key)
  | SDL_EVENT_KEY_UP key => some (onKeyUp g key)
  | SDL_EVENT_MOUSE_BUTTON_DOWN x y => onMouseButtonDown sqrt Game_GetGameCoords g x y
  | SDL_EVENT_QUIT => some (SDL_APP_SUCCESS, g)
  | SDL_EVENT_GAMEPAD_BUTTON_DOWN => some (SDL_APP_CONTINUE, g)
  | SDL_EVENT_MOUSE_WHEEL _ y => some (onMouseWheel g y)
  | SDL_EVENT_OTHER => some (SDL_APP_CONTINUE, g)

/-- The SDL main loop delivers the events one by one for as long as the
callback answers `SDL_APP_CONTINUE`; the state when the list is exhausted or
the application ends. -/
def runEvents (g : Globals K) : List (SDL_Event K) → Option (Globals K)
  | [] => some g
  | e :: es =>
    match SDL_AppEvent sqrt Game_GetGameCoords g e with
    | none => none
    | some (SDL_APP_CONTINUE, g1) => runEvents g1 es
    | some (_, g1) => some g1

end Handler

end Model

/-! ## `src/main.c`: the same handler, without the warp overlay -/

namespace RootMain

/-- The file-scope variables of `src/main.c` (it has neither `warp_factor`
nor `warp_buf`) together with the application state. -/
structure Globals (K : Type) where
  game : Game_AppState K
  earth_ref : Game_Object K
  moon_ref : Game_Object K
deriving DecidableEq

section Model

variable {K : Type} [LinearOrderedField K]

/-- Modelled from the spec: `add_object(state, object)` delegates to the
registry (`Game_AppState_AddObject`). -/
def Game_AppState_AddObject (game : Game_AppState K) (obj : Game_Object K) :
    Game_AppState K :=
  { game with objects := game.objects ++ [obj] }

/-- Function `SDL_AppEvent` of `src/main.c`. -/
def SDL_AppEvent (sqrt : K → K)
    (Game_GetGameCoords : Game_Camera K → SDL_Window → Vector2D K → Option (Vector2D K))
    (g : Globals K) (event : SDL_Event K) : Option (SDL_AppResult × Globals K) :=
  let game := g.game
  match event with
  | SDL_EVENT_KEY_DOWN key =>
    match key with
    | SDLK_PERIOD =>
      some (SDL_APP_CONTINUE, { g with game := { game with
        delta_time_scale := Double.mul game.delta_time_scale (Double.fin 2) } })
    | SDLK_COMMA =>
      let d := Double.div game.delta_time_scale (Double.fin 2)
      let d := if Double.lt d (Double.fin 0.001) then Double.fin 0.001 else d
      some (SDL_APP_CONTINUE, { g with game := { game with delta_time_scale := d } })
    | SDLK_Q => some (SDL_APP_SUCCESS, g)
    | SDLK_A | SDLK_LEFT =>
      some (SDL_APP_CONTINUE, { g with game := { game with
        key_state := { game.key_state with left := true }
        cam := { game.cam with vel := { game.cam.vel with x := -1 } } } })
    | SDLK_D | SDLK_RIGHT =>
      some (SDL_APP_CONTINUE, { g with game := { game with
        key_state := { game.key_state with right := true }
        cam := { game.cam with vel := { game.cam.vel with x := 1 } } } })
    | SDLK_S | SDLK_DOWN =>
      some (SDL_APP_CONTINUE, { g with game := { game with
        key_state := { game.key_state with down := true }
        cam := { game.cam with vel := { game.cam.vel with y := 1 } } } })
    | SDLK_W | SDLK_UP =>
      some (SDL_APP_CONTINUE, { g with game := { game with
        key_state := { game.key_state with up := true }
        cam := { game.cam with vel := { game.cam.vel with y := -1 } } } })
    | SDLK_OTHER => some (SDL_APP_CONTINUE, g)
  | SDL_EVENT_KEY_UP key =>
    match key with
    | SDLK_A | SDLK_LEFT =>
      let ks := { game.key_state with left := false }
      let vel := if !ks.right then { game.cam.vel with x := 0 } else game.cam.vel
      some (SDL_APP_CONTINUE, { g with game := { game with
        key_state := ks, cam := { game.cam with vel := vel } } })
    | SDLK_D | SDLK_RIGHT =>
      let ks := { game.key_state with right := false }
      let vel := if !ks.left then { game.cam.vel with x := 0 } else game.cam.vel
      some (SDL_APP_CONTINUE, { g with game := { game with
        key_state := ks, cam := { game.cam with vel := vel } } })
    | SDLK_S | SDLK_DOWN =>
      let ks := { game.key_state with down := false }
      let vel := if !ks.up then { game.cam.vel with y := 0 } else game.cam.vel
      some (SDL_APP_CONTINUE, { g with game := { game with
        key_state := ks, cam := { game.cam with vel := vel } } })
    | SDLK_W | SDLK_UP =>
      let ks := { game.key_state with up := false }
      let vel := if !ks.down then { game.cam.vel with y := 0 } else game.cam.vel
      some (SDL_APP_CONTINUE, { g with game := { game with
        key_state := ks, cam := { game.cam with vel := vel } } })
    | _ => some (SDL_APP_CONTINUE, g)
  | SDL_EVENT_MOUSE_BUTTON_DOWN x y => do
    let mouse_pos : Vector2D K := { x := x, y := y }
    let mouse_pos_game_coords ← Game_GetGameCoords game.cam game.window mouse_pos
    let r := Vector2D_Diff mouse_pos_game_coords g.earth_ref.rbody.pos
    let tangent_r : Vector2D K := { x := r.y, y := -r.x }
    let inv_abs ← fdiv 1 (Vector2D_Abs sqrt tangent_r)
    let tangent_r_norm := Vector2D_Scaled tangent_r inv_abs
    let dist := Vector2D_Abs sqrt r
    let ratio ← fdiv moon_dist dist
    let obj : Game_Object K := Game_Object_Create
    let obj := { obj with rbody := { obj.rbody with pos := mouse_pos_game_coords } }
    let obj := { obj with rbody := { obj.rbody with mass := g.moon_ref.rbody.mass } }
    let obj := { obj with rbody := { obj.rbody with
      vel := Vector2D_Scaled tangent_r_norm (moon_init_speed * ratio) } }
    let obj := { obj with material := { obj.material with
      texture := g.moon_ref.material.texture } }
    let obj := { obj with material := { obj.material with
      type := Game_MaterialType.GAME_MATERIALTYPE_SPRITE } }
    let obj := { obj with size := g.moon_ref.size }
    pure (SDL_APP_CONTINUE, { g with game := Game_AppState_AddObject game obj })
  | SDL_EVENT_QUIT => some (SDL_APP_SUCCESS, g)
  | SDL_EVENT_GAMEPAD_BUTTON_DOWN => some (SDL_APP_CONTINUE, g)
  | SDL_EVENT_MOUSE_WHEEL _ wheel_y =>
    let amt := Double.mul (Double.mul (Double.fin wheel_y) game.cam.zoom) (Double.fin 0.5)
    let zoom := Double.add game.cam.zoom amt
    let zoom := if Double.lt zoom (Double.fin min_zoom) then Double.fin min_zoom else zoom
    some (SDL_APP_CONTINUE,
      { g with game := { game with cam := { game.cam with zoom := zoom } } })
  | SDL_EVENT_OTHER => some (SDL_APP_CONTINUE, g)

end Model

end RootMain

section Model

variable {K : Type} [LinearOrderedField K]

/-- The part of the state of `src/src/main.c` that `src/main.c` also has. -/
def Globals.withoutWarp (g : Globals K) : RootMain.Globals K :=
  { game := g.game, earth_ref := g.earth_ref, moon_ref := g.moon_ref }

/-! ## Start-up (`SDL_AppInit`), used as the concrete starting state -/

/-- Modelled from the spec: `screen_to_world(screen_pos) = (screen_pos -
screen_center) / camera.zoom + camera.pos`, the `Game_GetGameCoords` of
`game.c`.  An infinite zoom sends every point to the camera position; a zero
or NaN zoom gives no finite vector. -/
def screen_to_world (cam : Game_Camera K) (window : SDL_Window) (p : Vector2D K) :
    Option (Vector2D K) :=
  match cam.zoom with
  | Double.fin z =>
    if z = 0 then none
    else some
      { x := (p.x - (window.w : K) / 2) / z + cam.pos.x
        y := (p.y - (window.h : K) / 2) / z + cam.pos.y }
  | Double.pinf => some cam.pos
  | Double.ninf => some cam.pos
  | Double.nan => none

/-- Modelled from the spec: `create_at(x, y)`, a body with zero velocity and
placeholder mass at the given position (`Game_Object_CreateAt`). -/
def Game_Object_CreateAt (x y : K) : Game_Object K :=
  { (Game_Object_Create : Game_Object K) with
    rbody := { (Game_Object_Create : Game_Object K).rbody with pos := { x := x, y := y } } }

/-- Modelled from the spec: `create() -> state` (`Game_AppState_Create`): no
object, no key held, camera at rest at the origin, time scale 1. -/
def Game_AppState_Create : Game_AppState K :=
  { cam := { pos := ⟨0, 0⟩, vel := ⟨0, 0⟩, zoom := Double.fin 1 }
    key_state := { left := false, right := false, up := false, down := false }
    delta_time_scale := Double.fin 1
    window := { w := 0, h := 0 }
    objects := [] }

/-- Function `SDL_AppInit` for a window of `w` by `h` pixels and the two loaded
textures: the earth at the window centre, the moon `moon_dist` below it. -/
def SDL_AppInit (w h : Int) (earth_texture moon_texture : Nat) : Globals K :=
  let app_state : Game_AppState K := Game_AppState_Create
  let app_state := { app_state with cam := { app_state.cam with zoom := Double.fin 0.5 } }
  let app_state := { app_state with window := { w := w, h := h } }
  let earth_mass : K := 50000
  let moon_mass : K := 0.0123 * earth_mass
  let earth : Game_Object K := Game_Object_CreateAt ((w >>> 1 : Int) : K) ((h >>> 1 : Int) : K)
  let earth := { earth with rbody := { earth.rbody with mass := earth_mass } }
  let earth := { earth with
    material := { type := Game_MaterialType.GAME_MATERIALTYPE_SPRITE, texture := earth_texture } }
  let earth := { earth with size := { x := 512, y := 512 } }
  let moon : Game_Object K :=
    Game_Object_CreateAt ((w >>> 1 : Int) : K) (((h >>> 1 : Int) : K) + moon_dist)
  let moon := { moon with
    material := { type := Game_MaterialType.GAME_MATERIALTYPE_SPRITE, texture := moon_texture } }
  let moon := { moon with rbody := { moon.rbody with mass := moon_mass } }
  let moon := { moon with rbody := { moon.rbody with
    vel := { moon.rbody.vel with x := moon_init_speed } } }
  let moon := { moon with size := { x := 128, y := 128 } }
  let app_state := Game_AddObject app_state earth
  let app_state := Game_AddObject app_state moon
  refresh_warp_buf
    { game := app_state, earth_ref := earth, moon_ref := moon, warp_factor := 1, warp_buf := none }

/-- The state after start-up in the 1280 by 720 window of `main.c`. -/
def startState : Globals K := SDL_AppInit 1280 720 1 2

/-! ## Vocabulary of the claims -/

/-- The contract of the C library square root over the reals: on a
non-negative argument, the non-negative number whose square is the argument. -/
def IsSqrt (sqrt : K → K) : Prop :=
  ∀ x, 0 ≤ x → 0 ≤ sqrt x ∧ sqrt x * sqrt x = x

/-- Dot product of two vectors. -/
def dot (a b : Vector2D K) : K := a.x * b.x + a.y * b.y

/-- Keys that move the camera. -/
def isDirectionKey : SDL_Keycode → Bool
  | SDLK_A | SDLK_LEFT | SDLK_D | SDLK_RIGHT => true
  | SDLK_S | SDLK_DOWN | SDLK_W | SDLK_UP => true
  | _ => false

/-- Key-down or key-up of a direction key. -/
def isDirectionEvent : SDL_Event K → Bool
  | SDL_EVENT_KEY_DOWN key => isDirectionKey key
  | SDL_EVENT_KEY_UP key => isDirectionKey key
  | _ => false

/-- Key-down or key-up of any key. -/
def isKeyEvent : SDL_Event K → Bool
  | SDL_EVENT_KEY_DOWN _ => true
  | SDL_EVENT_KEY_UP _ => true
  | _ => false

/-- Every event but a pointer click; the click branch is the only one that can
fail to produce a state. -/
def isNotClick : SDL_Event K → Bool
  | SDL_EVENT_MOUSE_BUTTON_DOWN _ _ => false
  | _ => true

/-- The physical keyboard after one more event: a key-down presses its key, a
key-up releases it. -/
def pressStep (held : SDL_Keycode → Bool) (e : SDL_Event K) : SDL_Keycode → Bool :=
  match e with
  | SDL_EVENT_KEY_DOWN key => fun k => if k = key then true else held k
  | SDL_EVENT_KEY_UP key => fun k => if k = key then false else held k
  | _ => held

/-- The physical keyboard after a list of events: which keys are down. -/
def heldAfter (held : SDL_Keycode → Bool) (es : List (SDL_Event K)) : SDL_Keycode → Bool :=
  es.foldl pressStep held

/-- The keyboard with no key down. -/
def noKeyHeld : SDL_Keycode → Bool := fun _ => false

/-- Events the handler answers with `SDL_APP_SUCCESS`: the application ends
and no later event is delivered. -/
def endsApp : SDL_Event K → Bool
  | SDL_EVENT_KEY_DOWN SDLK_Q => true
  | SDL_EVENT_QUIT => true
  | _ => false

/-- The events of the list that are delivered to the handler: all of them up
to and including the first that ends the application. -/
def delivered : List (SDL_Event K) → List (SDL_Event K)
  | [] => []
  | e :: es => if endsApp e then [e] else e :: delivered es

/-- No direction key is held according to the flags, and the camera is at
rest. -/
def atRest (g : Globals K) : Prop :=
  g.game.key_state.left = false ∧ g.game.key_state.right = false ∧
  g.game.key_state.up = false ∧ g.game.key_state.down = false ∧
  g.game.cam.vel = { x := 0, y := 0 }

instance (g : Globals K) : Decidable (atRest g) := by
  unfold atRest
  infer_instance

/-- What the key handling maintains on the flags: a component of the camera
velocity is zero when neither flag of its axis is set, and is 1 or -1
otherwise. -/
def KeyInv (g : Globals K) : Prop :=
  let ks := g.game.key_state
  let vel := g.game.cam.vel
  (ks.left = false ∧ ks.right = false → vel.x = 0) ∧
  (ks.left = true ∨ ks.right = true → vel.x = 1 ∨ vel.x = -1) ∧
  (ks.up = false ∧ ks.down = false → vel.y = 0) ∧
  (ks.up = true ∨ ks.down = true → vel.y = 1 ∨ vel.y = -1)

/-- A flag of the handler is only set while a key of its direction is down. -/
def FlagsHeld (g : Globals K) (held : SDL_Keycode → Bool) : Prop :=
  let ks := g.game.key_state
  (ks.left = true → held SDLK_A = true ∨ held SDLK_LEFT = true) ∧
  (ks.right = true → held SDLK_D = true ∨ held SDLK_RIGHT = true) ∧
  (ks.up = true → held SDLK_W = true ∨ held SDLK_UP = true) ∧
  (ks.down = true → held SDLK_S = true ∨ held SDLK_DOWN = true)

/-- Keys that set the left flag. -/
def isLeftKey : SDL_Keycode → Bool
  | SDLK_A | SDLK_LEFT => true
  | _ => false

/-- Keys that set the right flag. -/
def isRightKey : SDL_Keycode → Bool
  | SDLK_D | SDLK_RIGHT => true
  | _ => false

/-- Keys that set the up flag. -/
def isUpKey : SDL_Keycode → Bool
  | SDLK_W | SDLK_UP => true
  | _ => false

/-- Keys that set the down flag. -/
def isDownKey : SDL_Keycode → Bool
  | SDLK_S | SDLK_DOWN => true
  | _ => false

/-- The warp-out event: key-down of the comma key. -/
def warpOut : SDL_Event K := SDL_EVENT_KEY_DOWN SDLK_COMMA

/-- The warp-in event: key-down of the period key. -/
def warpIn : SDL_Event K := SDL_EVENT_KEY_DOWN SDLK_PERIOD

end Model

/-! ## Shared lemmas -/

section RefreshLemmas

variable {K : Type}

@[simp]
theorem refresh_warp_buf_game (g : Globals K) : (refresh_warp_buf g).game = g.game := by
  unfold refresh_warp_buf
  cases g.warp_buf <;> rfl

@[simp]
theorem refresh_warp_buf_warp_factor (g : Globals K) :
    (refresh_warp_buf g).warp_factor = g.warp_factor := by
  unfold refresh_warp_buf
  cases g.warp_buf <;> rfl

@[simp]
theorem refresh_warp_buf_warp_buf (g : Globals K) :
    (refresh_warp_buf g).warp_buf = some ("Time Warp: " ++ toString g.warp_factor ++ "x") := by
  unfold refresh_warp_buf
  cases g.warp_buf <;> rfl

@[simp]
theorem refresh_warp_buf_earth_ref (g : Globals K) :
    (refresh_warp_buf g).earth_ref = g.earth_ref := by
  unfold refresh_warp_buf
  cases g.warp_buf <;> rfl

@[simp]
theorem refresh_warp_buf_moon_ref (g : Globals K) :
    (refresh_warp_buf g).moon_ref = g.moon_ref := by
  unfold refresh_warp_buf
  cases g.warp_buf <;> rfl

end RefreshLemmas

section Lemmas

variable {K : Type} [LinearOrderedField K]

/-- The two handlers agree: `SDL_AppEvent` of `src/main.c` computes the result
of `SDL_AppEvent` of `src/src/main.c` with the warp overlay left out. -/
theorem rootMain_agrees (sqrt : K → K)
    (Game_GetGameCoords : Game_Camera K → SDL_Window → Vector2D K → Option (Vector2D K))
    (g : Globals K) (e : SDL_Event K) :
    RootMain.SDL_AppEvent sqrt Game_GetGameCoords g.withoutWarp e =
      (SDL_AppEvent sqrt Game_GetGameCoords g e).map (fun p => (p.1, p.2.withoutWarp)) := by
  cases e with
  | SDL_EVENT_KEY_DOWN key =>
    cases key with
    | SDLK_COMMA =>
      simp only [RootMain.SDL_AppEvent, SDL_AppEvent, onKeyDown, Globals.withoutWarp,
        Option.map_some', refresh_warp_buf_game, refresh_warp_buf_earth_ref,
        refresh_warp_buf_moon_ref]
      cases hc : Double.lt (Double.div g.game.delta_time_scale (Double.fin 2))
        (Double.fin 0.001) <;> simp
    | _ =>
      simp only [RootMain.SDL_AppEvent, SDL_AppEvent, onKeyDown, Globals.withoutWarp,
        Option.map_some', refresh_warp_buf_game, refresh_warp_buf_earth_ref,
        refresh_warp_buf_moon_ref]
  | SDL_EVENT_KEY_UP key =>
    cases key <;> rfl
  | SDL_EVENT_MOUSE_BUTTON_DOWN x y =>
    simp only [RootMain.SDL_AppEvent, SDL_AppEvent, onMouseButtonDown, Globals.withoutWarp,
      fdiv, Option.bind_eq_bind, Option.pure_def]
    cases Game_GetGameCoords g.game.cam g.game.window { x := x, y := y } with
    | none => rfl
    | some p =>
      simp only [Option.some_bind]
      split_ifs <;> rfl
  | SDL_EVENT_QUIT => rfl
  | SDL_EVENT_GAMEPAD_BUTTON_DOWN => rfl
  | SDL_EVENT_MOUSE_WHEEL x y => rfl
  | SDL_EVENT_OTHER => rfl

theorem startState_time_scale : (startState : Globals K).game.delta_time_scale = Double.fin 1 :=
  rfl

theorem startState_warp_factor : (startState : Globals K).warp_factor = 1 := by
  simp [startState, SDL_AppInit]

theorem startState_zoom : (startState : Globals K).game.cam.zoom = Double.fin 0.5 := rfl

theorem startState_atRest : atRest (startState : Globals K) := by
  simp [atRest, startState, SDL_AppInit, Game_AddObject, Game_AppState_Create]

theorem atRest_keyInv (g : Globals K) (h : atRest g) : KeyInv g := by
  obtain ⟨hl, hr, hu, hd, hv⟩ := h
  simp [KeyInv, hl, hr, hu, hd, hv]

theorem atRest_flagsHeld (g : Globals K) (h : atRest g) : FlagsHeld g noKeyHeld := by
  obtain ⟨hl, hr, hu, hd, _⟩ := h
  simp [FlagsHeld, hl, hr, hu, hd]

theorem onKeyDown_keyInv (g : Globals K) (key : SDL_Keycode) (h : KeyInv g) :
    KeyInv (onKeyDown g key).2 := by
  cases key <;> simp_all [onKeyDown, KeyInv]
  all_goals first
    | done
    | (split_ifs <;> simp_all)

theorem onKeyUp_keyInv (g : Globals K) (key : SDL_Keycode) (h : KeyInv g) :
    KeyInv (onKeyUp g key).2 := by
  unfold KeyInv at h ⊢
  cases key <;> simp only [onKeyUp] <;> first
    | exact h
    | (split_ifs with hc <;> simp at hc <;> simp_all)

theorem onKeyDown_flagsHeld (g : Globals K) (key : SDL_Keycode) (held : SDL_Keycode → Bool)
    (h : FlagsHeld g held) :
    FlagsHeld (onKeyDown g key).2 (pressStep held (SDL_EVENT_KEY_DOWN key : SDL_Event K)) := by
  unfold FlagsHeld at h ⊢
  obtain ⟨h1, h2, h3, h4⟩ := h
  cases key <;>
    simp only [onKeyDown, pressStep, refresh_warp_buf_game] <;>
    first
      | (refine ⟨?_, ?_, ?_, ?_⟩ <;> simp <;> assumption)
      | (split_ifs <;> refine ⟨?_, ?_, ?_, ?_⟩ <;> simp <;> assumption)

theorem onKeyUp_flagsHeld (g : Globals K) (key : SDL_Keycode) (held : SDL_Keycode → Bool)
    (h : FlagsHeld g held) :
    FlagsHeld (onKeyUp g key).2 (pressStep held (SDL_EVENT_KEY_UP key : SDL_Event K)) := by
  unfold FlagsHeld at h ⊢
  obtain ⟨h1, h2, h3, h4⟩ := h
  cases key <;>
    simp only [onKeyUp, pressStep] <;>
    (refine ⟨?_, ?_, ?_, ?_⟩ <;> simp <;> assumption)

end Lemmas

/-! ## Camera velocity and the direction keys (C6, C7, C10) -/

section Runs

variable {K : Type} [LinearOrderedField K]
variable (sqrt : K → K)
variable (Game_GetGameCoords : Game_Camera K → SDL_Window → Vector2D K → Option (Vector2D K))

theorem keyEvent_step (g : Globals K) (e : SDL_Event K) (held : SDL_Keycode → Bool)
    (he : isKeyEvent e = true) (h : KeyInv g) (hf : FlagsHeld g held) :
    ∃ r g1, SDL_AppEvent sqrt Game_GetGameCoords g e = some (r, g1) ∧
      KeyInv g1 ∧ FlagsHeld g1 (pressStep held e) ∧
      (endsApp e = true → r = SDL_APP_SUCCESS) ∧
      (endsApp e = false → r = SDL_APP_CONTINUE) := by
  cases e with
  | SDL_EVENT_KEY_DOWN key =>
    refine ⟨_, _, rfl, onKeyDown_keyInv g key h, onKeyDown_flagsHeld g key held hf, ?_, ?_⟩ <;>
      cases key <;> simp [endsApp, onKeyDown]
  | SDL_EVENT_KEY_UP key =>
    refine ⟨_, _, rfl, onKeyUp_keyInv g key h, onKeyUp_flagsHeld g key held hf, ?_, ?_⟩ <;>
      cases key <;> simp [endsApp, onKeyUp]
  | _ => simp [isKeyEvent] at he

theorem runEvents_keys (es : List (SDL_Event K)) :
    ∀ (g : Globals K) (held : SDL_Keycode → Bool),
      (∀ e ∈ es, isKeyEvent e = true) → KeyInv g → FlagsHeld g held →
      ∃ g1, runEvents sqrt Game_GetGameCoords g es = some g1 ∧ KeyInv g1 ∧
        FlagsHeld g1 (heldAfter held (delivered es)) := by
  induction es with
  | nil => intro g held _ h hf; exact ⟨g, rfl, h, hf⟩
  | cons e es ih =>
    intro g held hk h hf
    obtain ⟨r, g1, hstep, hinv, hfl, hend, hcont⟩ :=
      keyEvent_step sqrt Game_GetGameCoords g e held (hk e (List.mem_cons_self e es)) h hf
    cases hq : endsApp e with
    | true =>
      have hr := hend hq
      subst hr
      refine ⟨g1, by simp [runEvents, hstep], hinv, ?_⟩
      simpa [delivered, hq, heldAfter] using hfl
    | false =>
      have hr := hcont hq
      subst hr
      obtain ⟨g2, hrun, hinv2, hfl2⟩ :=
        ih g1 (pressStep held e) (fun e1 h1 => hk e1 (List.mem_cons_of_mem e h1)) hinv hfl
      refine ⟨g2, by simp [runEvents, hstep, hrun], hinv2, ?_⟩
      simpa [delivered, hq, heldAfter] using hfl2

theorem keyInv_range (g : Globals K) (h : KeyInv g) :
    (g.game.cam.vel.x = -1 ∨ g.game.cam.vel.x = 0 ∨ g.game.cam.vel.x = 1) ∧
    (g.game.cam.vel.y = -1 ∨ g.game.cam.vel.y = 0 ∨ g.game.cam.vel.y = 1) := by
  obtain ⟨h1, h2, h3, h4⟩ := h
  constructor
  · cases hl : g.game.key_state.left <;> cases hr : g.game.key_state.right <;>
      simp [hl, hr] at h1 h2 <;> tauto
  · cases hu : g.game.key_state.up <;> cases hd : g.game.key_state.down <;>
      simp [hu, hd] at h3 h4 <;> tauto

omit [LinearOrderedField K] in
theorem isDirectionEvent_isKeyEvent (e : SDL_Event K) (h : isDirectionEvent e = true) :
    isKeyEvent e = true := by
  cases e <;> simp_all [isDirectionEvent, isKeyEvent]

theorem directionEvent_continues (g : Globals K) (e : SDL_Event K)
    (he : isDirectionEvent e = true) :
    ∃ g1, SDL_AppEvent sqrt Game_GetGameCoords g e = some (SDL_APP_CONTINUE, g1) := by
  cases e with
  | SDL_EVENT_KEY_DOWN key =>
    cases key <;> first
      | (simp [isDirectionEvent, isDirectionKey] at he; done)
      | exact ⟨_, rfl⟩
  | SDL_EVENT_KEY_UP key =>
    cases key <;> first
      | (simp [isDirectionEvent, isDirectionKey] at he; done)
      | exact ⟨_, rfl⟩
  | _ => simp [isDirectionEvent] at he

theorem runEvents_direction_append (es : List (SDL_Event K)) (e : SDL_Event K) :
    ∀ g : Globals K, (∀ e1 ∈ es, isDirectionEvent e1 = true) →
      ∃ g0, runEvents sqrt Game_GetGameCoords g es = some g0 ∧
        runEvents sqrt Game_GetGameCoords g (es ++ [e]) =
          runEvents sqrt Game_GetGameCoords g0 [e] := by
  induction es with
  | nil => intro g _; exact ⟨g, rfl, rfl⟩
  | cons e1 es ih =>
    intro g hk
    obtain ⟨g1, hstep⟩ :=
      directionEvent_continues sqrt Game_GetGameCoords g e1 (hk e1 (List.mem_cons_self e1 es))
    obtain ⟨g0, hrun, happ⟩ := ih g1 (fun e2 h2 => hk e2 (List.mem_cons_of_mem e1 h2))
    refine ⟨g0, by simp [runEvents, hstep, hrun], ?_⟩
    simp only [List.cons_append, runEvents, hstep]
    exact happ

end Runs

/-- C10: starting with no direction key held and the camera at rest, every
sequence of key-down and key-up events is handled, and afterwards the
horizontal velocity is 0 when none of the keys A, LEFT, D, RIGHT is down, the
vertical velocity is 0 when none of the keys W, UP, S, DOWN is down, and each
component is one of -1, 0, 1.  Which keys are down is read off the delivered
events, not off the flags of the handler. -/
theorem camera_stops_when_keys_released {K : Type} [LinearOrderedField K] (sqrt : K → K)
    (Game_GetGameCoords : Game_Camera K → SDL_Window → Vector2D K → Option (Vector2D K))
    (g : Globals K) (es : List (SDL_Event K))
    (hstart : atRest g) (hkeys : ∀ e ∈ es, isKeyEvent e = true) :
    ∃ g1, runEvents sqrt Game_GetGameCoords g es = some g1 ∧
      (heldAfter noKeyHeld (delivered es) SDLK_A = false ∧
        heldAfter noKeyHeld (delivered es) SDLK_LEFT = false ∧
        heldAfter noKeyHeld (delivered es) SDLK_D = false ∧
        heldAfter noKeyHeld (delivered es) SDLK_RIGHT = false →
        g1.game.cam.vel.x = 0) ∧
      (heldAfter noKeyHeld (delivered es) SDLK_W = false ∧
        heldAfter noKeyHeld (delivered es) SDLK_UP = false ∧
        heldAfter noKeyHeld (delivered es) SDLK_S = false ∧
        heldAfter noKeyHeld (delivered es) SDLK_DOWN = false →
        g1.game.cam.vel.y = 0) ∧
      (g1.game.cam.vel.x = -1 ∨ g1.game.cam.vel.x = 0 ∨ g1.game.cam.vel.x = 1) ∧
      (g1.game.cam.vel.y = -1 ∨ g1.game.cam.vel.y = 0 ∨ g1.game.cam.vel.y = 1) := by
  obtain ⟨g1, hrun, ⟨h1, h2, h3, h4⟩, ⟨f1, f2, f3, f4⟩⟩ :=
    runEvents_keys sqrt Game_GetGameCoords es g noKeyHeld hkeys
      (atRest_keyInv g hstart) (atRest_flagsHeld g hstart)
  refine ⟨g1, hrun, ?_, ?_, ?_, ?_⟩
  · rintro ⟨ha, hl, hd, hr⟩
    apply h1
    constructor
    · cases hfl : g1.game.key_state.left with
      | false => rfl
      | true => rcases f1 hfl with h | h <;> simp_all
    · cases hfl : g1.game.key_state.right with
      | false => rfl
      | true => rcases f2 hfl with h | h <;> simp_all
  · rintro ⟨hw, hu, hs, hd⟩
    apply h3
    constructor
    · cases hfl : g1.game.key_state.up with
      | false => rfl
      | true => rcases f3 hfl with h | h <;> simp_all
    · cases hfl : g1.game.key_state.down with
      | false => rfl
      | true => rcases f4 hfl with h | h <;> simp_all
  · exact (keyInv_range g1 ⟨h1, h2, h3, h4⟩).1
  · exact (keyInv_range g1 ⟨h1, h2, h3, h4⟩).2

/-- Witness for C10: from the start-up state press left, press up, release
left; no horizontal key is down any more and the horizontal velocity is 0. -/
theorem camera_stops_when_keys_released_witness :
    ∃ g1, runEvents Real.sqrt screen_to_world (startState : Globals ℝ)
        [SDL_EVENT_KEY_DOWN SDLK_LEFT, SDL_EVENT_KEY_DOWN SDLK_UP,
          SDL_EVENT_KEY_UP SDLK_LEFT] = some g1 ∧
      g1.game.cam.vel.x = 0 ∧
      (g1.game.cam.vel.y = -1 ∨ g1.game.cam.vel.y = 0 ∨ g1.game.cam.vel.y = 1) := by
  obtain ⟨g1, hrun, hx, _, _, hy⟩ :=
    camera_stops_when_keys_released Real.sqrt screen_to_world (startState : Globals ℝ)
      [SDL_EVENT_KEY_DOWN SDLK_LEFT, SDL_EVENT_KEY_DOWN SDLK_UP, SDL_EVENT_KEY_UP SDLK_LEFT]
      startState_atRest (by simp [isKeyEvent])
  exact ⟨g1, hrun, hx (by decide), hy⟩

/-- C7, as the code behaves: after every sequence of direction key events
(from a keyboard with no key down), a key-down of a direction key while a key
of the opposite direction is down leaves both keys down and sets the camera
velocity component to the direction of the key just pressed (-1 for left and
up, 1 for right and down), not to 0: opposing keys do not cancel, the last
key-down wins. -/
theorem opposing_key_down_wins {K : Type} [LinearOrderedField K] (sqrt : K → K)
    (Game_GetGameCoords : Game_Camera K → SDL_Window → Vector2D K → Option (Vector2D K))
    (g : Globals K) (es : List (SDL_Event K)) (k opp : SDL_Keycode)
    (hkeys : ∀ e ∈ es, isDirectionEvent e = true)
    (hheld : heldAfter noKeyHeld es opp = true) :
    ∃ g1, runEvents sqrt Game_GetGameCoords g (es ++ [SDL_EVENT_KEY_DOWN k]) = some g1 ∧
      (isDirectionKey k = true → k ≠ opp →
        heldAfter noKeyHeld (es ++ [SDL_EVENT_KEY_DOWN k]) k = true ∧
        heldAfter noKeyHeld (es ++ [SDL_EVENT_KEY_DOWN k]) opp = true) ∧
      (isLeftKey k = true → isRightKey opp = true → g1.game.cam.vel.x = -1) ∧
      (isRightKey k = true → isLeftKey opp = true → g1.game.cam.vel.x = 1) ∧
      (isUpKey k = true → isDownKey opp = true → g1.game.cam.vel.y = -1) ∧
      (isDownKey k = true → isUpKey opp = true → g1.game.cam.vel.y = 1) := by
  obtain ⟨g0, _, happ⟩ :=
    runEvents_direction_append sqrt Game_GetGameCoords es (SDL_EVENT_KEY_DOWN k) g hkeys
  have hheld1 : ∀ k1 : SDL_Keycode,
      heldAfter noKeyHeld (es ++ [(SDL_EVENT_KEY_DOWN k : SDL_Event K)]) k1
        = if k1 = k then true else heldAfter noKeyHeld es k1 := by
    intro k1
    simp [heldAfter, List.foldl_append, pressStep]
  have hlast : runEvents sqrt Game_GetGameCoords g0 [SDL_EVENT_KEY_DOWN k]
      = some (onKeyDown g0 k).2 := by
    cases k <;> simp [runEvents, SDL_AppEvent, onKeyDown]
  refine ⟨(onKeyDown g0 k).2, by rw [happ, hlast], ?_, ?_, ?_, ?_, ?_⟩
  · intro _ hne
    rw [hheld1, hheld1, if_pos rfl, if_neg (Ne.symm hne)]
    exact ⟨rfl, hheld⟩
  · intro h1 _
    cases k <;> first
      | (simp [isLeftKey] at h1; done)
      | rfl
  · intro h1 _
    cases k <;> first
      | (simp [isRightKey] at h1; done)
      | rfl
  · intro h1 _
    cases k <;> first
      | (simp [isUpKey] at h1; done)
      | rfl
  · intro h1 _
    cases k <;> first
      | (simp [isDownKey] at h1; done)
      | rfl

/-- Witness for C7 as amended: D is down after a key-down of D; a key-down of
LEFT then leaves LEFT and D down with horizontal velocity -1. -/
theorem opposing_key_down_wins_witness :
    ∃ g1, runEvents Real.sqrt screen_to_world (startState : Globals ℝ)
        [SDL_EVENT_KEY_DOWN SDLK_D, SDL_EVENT_KEY_DOWN SDLK_LEFT] = some g1 ∧
      heldAfter noKeyHeld
        ([SDL_EVENT_KEY_DOWN SDLK_D, SDL_EVENT_KEY_DOWN SDLK_LEFT] : List (SDL_Event ℝ))
        SDLK_LEFT = true ∧
      heldAfter noKeyHeld
        ([SDL_EVENT_KEY_DOWN SDLK_D, SDL_EVENT_KEY_DOWN SDLK_LEFT] : List (SDL_Event ℝ))
        SDLK_D = true ∧
      g1.game.cam.vel.x = -1 := by
  obtain ⟨g1, hrun, hheld, hx, _, _, _⟩ :=
    opposing_key_down_wins Real.sqrt screen_to_world (startState : Globals ℝ)
      [SDL_EVENT_KEY_DOWN SDLK_D] SDLK_LEFT SDLK_D (by simp [isDirectionEvent, isDirectionKey])
      (by decide)
  exact ⟨g1, hrun, (hheld (by decide) (by decide)).1, (hheld (by decide) (by decide)).2,
    hx (by decide) (by decide)⟩

/-- Counterexample to C7 as stated: from the start-up state (no key held,
camera at rest), key-down LEFT then key-down RIGHT leaves both keys down, both
flags set, and the horizontal velocity at 1, not 0. -/
theorem opposing_keys_cancel_counterexample :
    heldAfter noKeyHeld
      ([SDL_EVENT_KEY_DOWN SDLK_LEFT, SDL_EVENT_KEY_DOWN SDLK_RIGHT] : List (SDL_Event ℝ))
      SDLK_LEFT = true ∧
    heldAfter noKeyHeld
      ([SDL_EVENT_KEY_DOWN SDLK_LEFT, SDL_EVENT_KEY_DOWN SDLK_RIGHT] : List (SDL_Event ℝ))
      SDLK_RIGHT = true ∧
    ∃ g1, runEvents Real.sqrt screen_to_world (startState : Globals ℝ)
        [SDL_EVENT_KEY_DOWN SDLK_LEFT, SDL_EVENT_KEY_DOWN SDLK_RIGHT] = some g1 ∧
      g1.game.key_state.left = true ∧ g1.game.key_state.right = true ∧
      g1.game.cam.vel.x = 1 ∧ g1.game.cam.vel.x ≠ 0 := by
  refine ⟨by decide, by decide, _, rfl, rfl, rfl, ?_, ?_⟩
  · simp [onKeyDown]
  · simp [onKeyDown]

/-- C6 fails on the code: from any state, key-down left, key-down right,
key-up right leaves left held, right not held, and the horizontal velocity
at 1 instead of -1 (and symmetrically for the other three orders). -/
theorem release_keeps_stale_velocity {K : Type} [LinearOrderedField K] (sqrt : K → K)
    (Game_GetGameCoords : Game_Camera K → SDL_Window → Vector2D K → Option (Vector2D K))
    (g : Globals K) :
    (∃ g1, runEvents sqrt Game_GetGameCoords g
        [SDL_EVENT_KEY_DOWN SDLK_LEFT, SDL_EVENT_KEY_DOWN SDLK_RIGHT,
          SDL_EVENT_KEY_UP SDLK_RIGHT] = some g1 ∧
      g1.game.key_state.left = true ∧ g1.game.key_state.right = false ∧
      g1.game.cam.vel.x = 1) ∧
    (∃ g1, runEvents sqrt Game_GetGameCoords g
        [SDL_EVENT_KEY_DOWN SDLK_RIGHT, SDL_EVENT_KEY_DOWN SDLK_LEFT,
          SDL_EVENT_KEY_UP SDLK_LEFT] = some g1 ∧
      g1.game.key_state.right = true ∧ g1.game.key_state.left = false ∧
      g1.game.cam.vel.x = -1) ∧
    (∃ g1, runEvents sqrt Game_GetGameCoords g
        [SDL_EVENT_KEY_DOWN SDLK_UP, SDL_EVENT_KEY_DOWN SDLK_DOWN,
          SDL_EVENT_KEY_UP SDLK_DOWN] = some g1 ∧
      g1.game.key_state.up = true ∧ g1.game.key_state.down = false ∧
      g1.game.cam.vel.y = 1) ∧
    (∃ g1, runEvents sqrt Game_GetGameCoords g
        [SDL_EVENT_KEY_DOWN SDLK_DOWN, SDL_EVENT_KEY_DOWN SDLK_UP,
          SDL_EVENT_KEY_UP SDLK_UP] = some g1 ∧
      g1.game.key_state.down = true ∧ g1.game.key_state.up = false ∧
      g1.game.cam.vel.y = -1) := by
  refine ⟨?_, ?_, ?_, ?_⟩ <;>
    simp [runEvents, SDL_AppEvent, onKeyDown, onKeyUp]

/-! ## Doubles -/

section DoubleLemmas

variable {K : Type} [LinearOrderedField K]

theorem DBL_OVERFLOW_pos : (0 : K) < DBL_OVERFLOW := by
  unfold DBL_OVERFLOW
  norm_num

theorem DBL_OVERFLOW_le : (DBL_OVERFLOW : K) ≤ 2 ^ 1024 := by
  unfold DBL_OVERFLOW
  norm_num

theorem DBL_OVERFLOW_gt : (3 * 2 ^ 1022 : K) < DBL_OVERFLOW := by
  unfold DBL_OVERFLOW
  norm_num

theorem ofExact_fin (q : K) (h1 : -DBL_OVERFLOW < q) (h2 : q < DBL_OVERFLOW) :
    Double.ofExact q = Double.fin q := by
  unfold Double.ofExact
  rw [if_neg (not_le.mpr h2), if_neg (not_le.mpr h1)]

theorem ofExact_pinf (q : K) (h : DBL_OVERFLOW ≤ q) : Double.ofExact q = Double.pinf := by
  unfold Double.ofExact
  rw [if_pos h]

theorem ofExact_ninf (q : K) (h : q ≤ -DBL_OVERFLOW) : Double.ofExact q = Double.ninf := by
  unfold Double.ofExact
  have hpos : (0 : K) < DBL_OVERFLOW := DBL_OVERFLOW_pos
  rw [if_neg (by linarith), if_pos h]

theorem ofExact_cases (q : K) :
    (DBL_OVERFLOW ≤ q ∧ Double.ofExact q = Double.pinf) ∨
    (q ≤ -DBL_OVERFLOW ∧ Double.ofExact q = Double.ninf) ∨
    (-DBL_OVERFLOW < q ∧ q < DBL_OVERFLOW ∧ Double.ofExact q = Double.fin q) := by
  by_cases h1 : DBL_OVERFLOW ≤ q
  · exact Or.inl ⟨h1, ofExact_pinf q h1⟩
  · by_cases h2 : q ≤ -DBL_OVERFLOW
    · exact Or.inr (Or.inl ⟨h2, ofExact_ninf q h2⟩)
    · exact Or.inr (Or.inr ⟨not_le.mp h2, not_le.mp h1,
        ofExact_fin q (not_le.mp h2) (not_le.mp h1)⟩)

/-- The clamp of the comma branch: what `delta_time_scale` becomes. -/
theorem halve_clamp_atLeast (x : Double K) (hx : x ≠ Double.nan) :
    Double.atLeast 0.001
      (if Double.lt (Double.div x (Double.fin 2)) (Double.fin 0.001) = true
        then Double.fin 0.001 else Double.div x (Double.fin 2)) := by
  cases x with
  | nan => exact absurd rfl hx
  | pinf =>
    simp only [Double.div, Double.lt]
    norm_num
    exact Or.inl rfl
  | ninf =>
    simp only [Double.div, Double.lt]
    norm_num
    exact Or.inr ⟨_, rfl, le_refl _⟩
  | fin q =>
    have h2 : (2 : K) ≠ 0 := two_ne_zero
    simp only [Double.div, if_neg h2]
    rcases ofExact_cases (q / 2) with ⟨_, h⟩ | ⟨_, h⟩ | ⟨_, _, h⟩
    · rw [h]; simp only [Double.lt]; exact Or.inl rfl
    · rw [h]; simp only [Double.lt]; exact Or.inr ⟨_, rfl, le_refl _⟩
    · rw [h]
      simp only [Double.lt, decide_eq_true_eq]
      split_ifs with hc
      · exact Or.inr ⟨_, rfl, le_refl _⟩
      · exact Or.inr ⟨_, rfl, not_lt.mp hc⟩

theorem double_atLeast_mul_two (x : Double K) (hx : Double.atLeast 0.001 x) :
    Double.atLeast 0.001 (Double.mul x (Double.fin 2)) := by
  rcases hx with rfl | ⟨q, rfl, hq⟩
  · simp only [Double.mul]
    norm_num
    exact Or.inl rfl
  · simp only [Double.mul]
    have hpos : (0 : K) < DBL_OVERFLOW := DBL_OVERFLOW_pos
    have hq0 : (0 : K) < q := lt_of_lt_of_le (by norm_num) hq
    rcases ofExact_cases (q * 2) with ⟨_, h⟩ | ⟨h1, _⟩ | ⟨_, _, h⟩
    · rw [h]; exact Or.inl rfl
    · linarith
    · rw [h]; exact Or.inr ⟨_, rfl, by linarith⟩

theorem double_atLeast_pos (x : Double K) (hx : Double.atLeast 0.001 x) :
    Double.lt (Double.fin 0) x = true := by
  rcases hx with rfl | ⟨q, rfl, hq⟩
  · rfl
  · simp only [Double.lt, decide_eq_true_eq]
    exact lt_of_lt_of_le (by norm_num) hq

end DoubleLemmas

/-! ## Time scale (C1, C2) -/

section TimeScale

variable {K : Type} [LinearOrderedField K]
variable (sqrt : K → K)
variable (Game_GetGameCoords : Game_Camera K → SDL_Window → Vector2D K → Option (Vector2D K))

theorem warpOut_step (g : Globals K) :
    ∃ g1, SDL_AppEvent sqrt Game_GetGameCoords g warpOut = some (SDL_APP_CONTINUE, g1) ∧
      g1.game.delta_time_scale =
        (if Double.lt (Double.div g.game.delta_time_scale (Double.fin 2)) (Double.fin 0.001) = true
          then Double.fin 0.001 else Double.div g.game.delta_time_scale (Double.fin 2)) := by
  refine ⟨_, rfl, ?_⟩
  simp only [onKeyDown, refresh_warp_buf_game]
  split_ifs <;> rfl

theorem warpIn_step (g : Globals K) :
    ∃ g1, SDL_AppEvent sqrt Game_GetGameCoords g warpIn = some (SDL_APP_CONTINUE, g1) ∧
      g1.game.delta_time_scale = Double.mul g.game.delta_time_scale (Double.fin 2) ∧
      g1.warp_factor = (g.warp_factor * 2) % UINT_MODULUS ∧
      g1.warp_buf = some ("Time Warp: " ++ toString g1.warp_factor ++ "x") := by
  refine ⟨_, rfl, ?_, ?_, ?_⟩
  · simp only [onKeyDown, refresh_warp_buf_game]
  · simp only [onKeyDown, refresh_warp_buf_warp_factor, Nat.shiftLeft_eq, pow_one]
  · simp only [onKeyDown, refresh_warp_buf_warp_factor, refresh_warp_buf_warp_buf]

theorem step_time_scale_floor (g : Globals K) (e : SDL_Event K) (r : SDL_AppResult)
    (g1 : Globals K) (h : Double.atLeast 0.001 g.game.delta_time_scale)
    (hstep : SDL_AppEvent sqrt Game_GetGameCoords g e = some (r, g1)) :
    Double.atLeast 0.001 g1.game.delta_time_scale := by
  cases e with
  | SDL_EVENT_KEY_DOWN key =>
    simp only [SDL_AppEvent, Option.some.injEq] at hstep
    have hg : g1 = (onKeyDown g key).2 := by rw [hstep]
    rw [hg]
    cases key <;> simp only [onKeyDown, refresh_warp_buf_game] <;> try exact h
    · exact double_atLeast_mul_two _ h
    · have hn : g.game.delta_time_scale ≠ Double.nan := by
        rcases h with h | ⟨q, h, _⟩ <;> rw [h] <;> simp
      have hc := halve_clamp_atLeast g.game.delta_time_scale hn
      split_ifs with hlt
      · exact Or.inr ⟨_, rfl, le_refl _⟩
      · rw [if_neg hlt] at hc
        exact hc
  | SDL_EVENT_KEY_UP key =>
    simp only [SDL_AppEvent, Option.some.injEq] at hstep
    have hg : g1 = (onKeyUp g key).2 := by rw [hstep]
    rw [hg]
    cases key <;> simp only [onKeyUp] <;> exact h
  | SDL_EVENT_MOUSE_BUTTON_DOWN x y =>
    simp only [SDL_AppEvent, onMouseButtonDown, Option.bind_eq_bind, Option.pure_def,
      Option.bind_eq_some, Option.some.injEq, Prod.mk.injEq] at hstep
    obtain ⟨_, _, _, _, _, _, _, hg⟩ := hstep
    rw [← hg]
    exact h
  | SDL_EVENT_QUIT =>
    simp only [SDL_AppEvent, Option.some.injEq, Prod.mk.injEq] at hstep
    rw [← hstep.2]; exact h
  | SDL_EVENT_GAMEPAD_BUTTON_DOWN =>
    simp only [SDL_AppEvent, Option.some.injEq, Prod.mk.injEq] at hstep
    rw [← hstep.2]; exact h
  | SDL_EVENT_MOUSE_WHEEL x y =>
    simp only [SDL_AppEvent, Option.some.injEq] at hstep
    have hg : g1 = (onMouseWheel g y).2 := by rw [hstep]
    rw [hg]
    exact h
  | SDL_EVENT_OTHER =>
    simp only [SDL_AppEvent, Option.some.injEq, Prod.mk.injEq] at hstep
    rw [← hstep.2]; exact h

theorem notClick_step (g : Globals K) (e : SDL_Event K) (he : isNotClick e = true) :
    ∃ r g1, SDL_AppEvent sqrt Game_GetGameCoords g e = some (r, g1) := by
  cases e <;> first
    | exact ⟨_, _, rfl⟩
    | simp [isNotClick] at he

theorem runEvents_time_scale_floor (es : List (SDL_Event K)) :
    ∀ g g1 : Globals K, Double.atLeast 0.001 g.game.delta_time_scale →
      runEvents sqrt Game_GetGameCoords g es = some g1 →
      Double.atLeast 0.001 g1.game.delta_time_scale := by
  induction es with
  | nil =>
    intro g g1 h hrun
    simp only [runEvents, Option.some.injEq] at hrun
    rw [← hrun]; exact h
  | cons e es ih =>
    intro g g1 h hrun
    cases hstep : SDL_AppEvent sqrt Game_GetGameCoords g e with
    | none => simp [runEvents, hstep] at hrun
    | some p =>
      obtain ⟨r, g2⟩ := p
      have h2 := step_time_scale_floor sqrt Game_GetGameCoords g e r g2 h hstep
      cases r with
      | SDL_APP_CONTINUE =>
        simp only [runEvents, hstep] at hrun
        exact ih g2 g1 h2 hrun
      | SDL_APP_SUCCESS =>
        simp only [runEvents, hstep, Option.some.injEq] at hrun
        rw [← hrun]; exact h2
      | SDL_APP_FAILURE =>
        simp only [runEvents, hstep, Option.some.injEq] at hrun
        rw [← hrun]; exact h2

theorem runEvents_notClick_total (es : List (SDL_Event K)) :
    ∀ g : Globals K, (∀ e ∈ es, isNotClick e = true) →
      ∃ g1, runEvents sqrt Game_GetGameCoords g es = some g1 := by
  induction es with
  | nil => intro g _; exact ⟨g, rfl⟩
  | cons e es ih =>
    intro g hk
    obtain ⟨r, g2, hstep⟩ :=
      notClick_step sqrt Game_GetGameCoords g e (hk e (List.mem_cons_self e es))
    cases r with
    | SDL_APP_CONTINUE =>
      obtain ⟨g1, hrun⟩ := ih g2 (fun e1 h1 => hk e1 (List.mem_cons_of_mem e h1))
      exact ⟨g1, by simp [runEvents, hstep, hrun]⟩
    | SDL_APP_SUCCESS => exact ⟨g2, by simp [runEvents, hstep]⟩
    | SDL_APP_FAILURE => exact ⟨g2, by simp [runEvents, hstep]⟩

end TimeScale

/-- C1: a warp-out key-down leaves `delta_time_scale` at least 0.001 whatever
number or infinity it was before; a warp-in key-down keeps it at least 0.001
when it was; and from a value of at least 0.001 every sequence of events that
is handled ends with `delta_time_scale` at least 0.001, hence positive (a
sequence without pointer clicks is always handled). -/
theorem time_scale_floor {K : Type} [LinearOrderedField K] (sqrt : K → K)
    (Game_GetGameCoords : Game_Camera K → SDL_Window → Vector2D K → Option (Vector2D K))
    (g : Globals K) (es : List (SDL_Event K)) :
    (g.game.delta_time_scale ≠ Double.nan →
      ∃ g1, SDL_AppEvent sqrt Game_GetGameCoords g warpOut = some (SDL_APP_CONTINUE, g1) ∧
        Double.atLeast 0.001 g1.game.delta_time_scale) ∧
    (Double.atLeast 0.001 g.game.delta_time_scale →
      ∃ g1, SDL_AppEvent sqrt Game_GetGameCoords g warpIn = some (SDL_APP_CONTINUE, g1) ∧
        Double.atLeast 0.001 g1.game.delta_time_scale) ∧
    (Double.atLeast 0.001 g.game.delta_time_scale →
      (∀ g1, runEvents sqrt Game_GetGameCoords g es = some g1 →
        Double.atLeast 0.001 g1.game.delta_time_scale ∧
        Double.lt (Double.fin 0) g1.game.delta_time_scale = true) ∧
      ((∀ e ∈ es, isNotClick e = true) →
        ∃ g1, runEvents sqrt Game_GetGameCoords g es = some g1 ∧
          Double.atLeast 0.001 g1.game.delta_time_scale ∧
          Double.lt (Double.fin 0) g1.game.delta_time_scale = true)) := by
  have key : ∀ g1, Double.atLeast 0.001 g.game.delta_time_scale →
      runEvents sqrt Game_GetGameCoords g es = some g1 →
      Double.atLeast 0.001 g1.game.delta_time_scale ∧
        Double.lt (Double.fin 0) g1.game.delta_time_scale = true := by
    intro g1 h hrun
    have h1 := runEvents_time_scale_floor sqrt Game_GetGameCoords es g g1 h hrun
    exact ⟨h1, double_atLeast_pos _ h1⟩
  refine ⟨?_, ?_, ?_⟩
  · intro hn
    obtain ⟨g1, hstep, hd⟩ := warpOut_step sqrt Game_GetGameCoords g
    refine ⟨g1, hstep, ?_⟩
    rw [hd]
    exact halve_clamp_atLeast _ hn
  · intro h
    obtain ⟨g1, hstep, hd, _, _⟩ := warpIn_step sqrt Game_GetGameCoords g
    refine ⟨g1, hstep, ?_⟩
    rw [hd]
    exact double_atLeast_mul_two _ h
  · intro h
    refine ⟨fun g1 hrun => key g1 h hrun, ?_⟩
    intro hk
    obtain ⟨g1, hrun⟩ := runEvents_notClick_total sqrt Game_GetGameCoords es g hk
    exact ⟨g1, hrun, key g1 h hrun⟩

/-- Witness for C1: from the start-up state (time scale 1), two warp-outs, a
warp-in and a wheel event. -/
theorem time_scale_floor_witness :
    Double.atLeast 0.001 (startState : Globals ℝ).game.delta_time_scale ∧
    ∃ g1, runEvents Real.sqrt screen_to_world (startState : Globals ℝ)
        [warpOut, warpOut, warpIn, SDL_EVENT_MOUSE_WHEEL 0 (-3)] = some g1 ∧
      Double.atLeast 0.001 g1.game.delta_time_scale ∧
      Double.lt (Double.fin 0) g1.game.delta_time_scale = true :=
  have h : Double.atLeast 0.001 (startState : Globals ℝ).game.delta_time_scale :=
    Or.inr ⟨1, startState_time_scale, by norm_num⟩
  ⟨h, ((time_scale_floor Real.sqrt screen_to_world (startState : Globals ℝ) _).2.2 h).2
    (by simp [isNotClick, warpOut, warpIn])⟩

section Halving

variable {K : Type} [LinearOrderedField K]
variable (sqrt : K → K)
variable (Game_GetGameCoords : Game_Camera K → SDL_Window → Vector2D K → Option (Vector2D K))

theorem warpOut_step_fin (g : Globals K) (d : K) (hd : g.game.delta_time_scale = Double.fin d)
    (hpos : 0 < d) (hlt : d < DBL_OVERFLOW) :
    ∃ g1, SDL_AppEvent sqrt Game_GetGameCoords g warpOut = some (SDL_APP_CONTINUE, g1) ∧
      g1.game.delta_time_scale = Double.fin (if d / 2 < 0.001 then 0.001 else d / 2) := by
  obtain ⟨g1, hstep, h1⟩ := warpOut_step sqrt Game_GetGameCoords g
  refine ⟨g1, hstep, ?_⟩
  have hB : (0 : K) < DBL_OVERFLOW := DBL_OVERFLOW_pos
  have hdiv : Double.div (Double.fin d) (Double.fin 2) = Double.fin (d / 2) := by
    simp only [Double.div, if_neg (two_ne_zero : (2 : K) ≠ 0)]
    exact ofExact_fin _ (by linarith) (by linarith)
  rw [h1, hd, hdiv]
  simp only [Double.lt, decide_eq_true_eq]
  split_ifs <;> rfl

theorem warpOut_stays_at_floor (m : Nat) :
    ∀ g : Globals K, g.game.delta_time_scale = Double.fin 0.001 →
      ∃ g1, runEvents sqrt Game_GetGameCoords g (List.replicate m warpOut) = some g1 ∧
        g1.game.delta_time_scale = Double.fin 0.001 := by
  induction m with
  | zero => intro g h; exact ⟨g, rfl, h⟩
  | succ m ih =>
    intro g h
    have hB : (3 * 2 ^ 1022 : K) < DBL_OVERFLOW := DBL_OVERFLOW_gt
    obtain ⟨g2, hstep, hd⟩ := warpOut_step_fin sqrt Game_GetGameCoords g 0.001 h
      (by norm_num) (lt_trans (by norm_num) hB)
    have h2 : g2.game.delta_time_scale = Double.fin 0.001 := by
      rw [hd]; norm_num
    obtain ⟨g1, hrun, h1⟩ := ih g2 h2
    exact ⟨g1, by simp [List.replicate_succ, runEvents, hstep, hrun], h1⟩

theorem warpOut_reaches_floor (n : Nat) :
    ∀ (g : Globals K) (d : K), g.game.delta_time_scale = Double.fin d → 0 < d →
      d < DBL_OVERFLOW → d < 0.002 * 2 ^ n →
      ∀ m, n < m →
        ∃ g1, runEvents sqrt Game_GetGameCoords g (List.replicate m warpOut) = some g1 ∧
          g1.game.delta_time_scale = Double.fin 0.001 := by
  induction n with
  | zero =>
    intro g d hd hpos hB hlt m hm
    obtain ⟨k, rfl⟩ : ∃ k, m = k + 1 := ⟨m - 1, by omega⟩
    obtain ⟨g2, hstep, hd2⟩ := warpOut_step_fin sqrt Game_GetGameCoords g d hd hpos hB
    have h2 : g2.game.delta_time_scale = Double.fin 0.001 := by
      rw [hd2, if_pos (by norm_num at hlt ⊢; linarith)]
    obtain ⟨g1, hrun, h1⟩ := warpOut_stays_at_floor sqrt Game_GetGameCoords k g2 h2
    exact ⟨g1, by simp [List.replicate_succ, runEvents, hstep, hrun], h1⟩
  | succ n ih =>
    intro g d hd hpos hB hlt m hm
    obtain ⟨k, rfl⟩ : ∃ k, m = k + 1 := ⟨m - 1, by omega⟩
    obtain ⟨g2, hstep, hd2⟩ := warpOut_step_fin sqrt Game_GetGameCoords g d hd hpos hB
    by_cases hc : d / 2 < 0.001
    · have h2 : g2.game.delta_time_scale = Double.fin 0.001 := by rw [hd2, if_pos hc]
      obtain ⟨g1, hrun, h1⟩ := warpOut_stays_at_floor sqrt Game_GetGameCoords k g2 h2
      exact ⟨g1, by simp [List.replicate_succ, runEvents, hstep, hrun], h1⟩
    · have h2 : g2.game.delta_time_scale = Double.fin (d / 2) := by rw [hd2, if_neg hc]
      have hlt2 : d / 2 < 0.002 * 2 ^ n := by
        rw [pow_succ] at hlt
        linarith
      obtain ⟨g1, hrun, h1⟩ :=
        ih g2 (d / 2) h2 (by linarith) (by linarith) hlt2 k (by omega)
      exact ⟨g1, by simp [List.replicate_succ, runEvents, hstep, hrun], h1⟩

theorem warpIn_run (n : Nat) :
    ∀ (g : Globals K) (d : K), g.game.delta_time_scale = Double.fin d → 0 < d →
      d * 2 ^ (n + 1) < DBL_OVERFLOW →
      ∃ g1, runEvents sqrt Game_GetGameCoords g (List.replicate (n + 1) warpIn) = some g1 ∧
        g1.game.delta_time_scale = Double.fin (d * 2 ^ (n + 1)) ∧
        g1.warp_factor = (g.warp_factor * 2 ^ (n + 1)) % UINT_MODULUS ∧
        g1.warp_buf = some ("Time Warp: " ++ toString g1.warp_factor ++ "x") := by
  induction n with
  | zero =>
    intro g d hd hpos hB
    obtain ⟨g1, hstep, hd1, hw, hb⟩ := warpIn_step sqrt Game_GetGameCoords g
    have hpos' : (0 : K) < DBL_OVERFLOW := DBL_OVERFLOW_pos
    refine ⟨g1, by simp [runEvents, hstep], ?_, ?_, hb⟩
    · rw [hd1, hd]
      simp only [Double.mul]
      norm_num at hB ⊢
      exact ofExact_fin _ (by linarith) hB
    · rw [hw]; norm_num
  | succ n ih =>
    intro g d hd hpos hB
    obtain ⟨g2, hstep, hd2, hw, _⟩ := warpIn_step sqrt Game_GetGameCoords g
    have hpos' : (0 : K) < DBL_OVERFLOW := DBL_OVERFLOW_pos
    have hpow : (1 : K) ≤ 2 ^ (n + 1) := one_le_pow₀ (by norm_num)
    have hd2' : g2.game.delta_time_scale = Double.fin (d * 2) := by
      rw [hd2, hd]
      simp only [Double.mul]
      have : d * 2 < DBL_OVERFLOW := by
        have : d * 2 ≤ d * 2 ^ (n + 1 + 1) := by
          rw [pow_succ]
          nlinarith
        linarith
      exact ofExact_fin _ (by linarith) this
    obtain ⟨g1, hrun, hd1, hw1, hb1⟩ := ih g2 (d * 2) hd2' (by linarith)
      (by rw [pow_succ] at hB; linarith)
    refine ⟨g1, ?_, ?_, ?_, hb1⟩
    · rw [List.replicate_succ]
      simp only [runEvents, hstep]
      exact hrun
    · rw [hd1]; congr 1; ring
    · rw [hw1, hw, Nat.mod_mul_mod]
      congr 1
      ring

theorem warpOut_stays_infinite (m : Nat) :
    ∀ g : Globals K, g.game.delta_time_scale = Double.pinf →
      ∃ g1, runEvents sqrt Game_GetGameCoords g (List.replicate m warpOut) = some g1 ∧
        g1.game.delta_time_scale = Double.pinf := by
  induction m with
  | zero => intro g h; exact ⟨g, rfl, h⟩
  | succ m ih =>
    intro g h
    obtain ⟨g2, hstep, hd⟩ := warpOut_step sqrt Game_GetGameCoords g
    have h2 : g2.game.delta_time_scale = Double.pinf := by
      rw [hd, h]
      simp only [Double.div, Double.lt]
      norm_num
    obtain ⟨g1, hrun, h1⟩ := ih g2 h2
    exact ⟨g1, by simp [List.replicate_succ, runEvents, hstep, hrun], h1⟩

theorem runEvents_append_continue (es1 es2 : List (SDL_Event K)) :
    ∀ g g1 : Globals K, runEvents sqrt Game_GetGameCoords g es1 = some g1 →
      (∀ e ∈ es1, endsApp e = false) →
      runEvents sqrt Game_GetGameCoords g (es1 ++ es2) =
        runEvents sqrt Game_GetGameCoords g1 es2 := by
  induction es1 with
  | nil =>
    intro g g1 h _
    simp only [runEvents, Option.some.injEq] at h
    rw [h]; rfl
  | cons e es ih =>
    intro g g1 h hk
    have he := hk e (List.mem_cons_self e es)
    cases hstep : SDL_AppEvent sqrt Game_GetGameCoords g e with
    | none => simp [runEvents, hstep] at h
    | some p =>
      obtain ⟨r, g2⟩ := p
      have hr : r = SDL_APP_CONTINUE := by
        cases e with
        | SDL_EVENT_KEY_DOWN key =>
          simp only [SDL_AppEvent, Option.some.injEq] at hstep
          cases key <;> simp [endsApp] at he <;> simp [onKeyDown] at hstep <;> exact hstep.1.symm
        | SDL_EVENT_KEY_UP key =>
          simp only [SDL_AppEvent, Option.some.injEq] at hstep
          cases key <;> simp [onKeyUp] at hstep <;> exact hstep.1.symm
        | SDL_EVENT_MOUSE_BUTTON_DOWN x y =>
          simp only [SDL_AppEvent, onMouseButtonDown, Option.bind_eq_bind, Option.pure_def,
            Option.bind_eq_some, Option.some.injEq, Prod.mk.injEq] at hstep
          obtain ⟨_, _, _, _, _, _, hr, _⟩ := hstep
          exact hr.symm
        | SDL_EVENT_QUIT => simp [endsApp] at he
        | SDL_EVENT_GAMEPAD_BUTTON_DOWN =>
          simp only [SDL_AppEvent, Option.some.injEq, Prod.mk.injEq] at hstep
          exact hstep.1.symm
        | SDL_EVENT_MOUSE_WHEEL x y =>
          simp only [SDL_AppEvent, onMouseWheel, Option.some.injEq, Prod.mk.injEq] at hstep
          exact hstep.1.symm
        | SDL_EVENT_OTHER =>
          simp only [SDL_AppEvent, Option.some.injEq, Prod.mk.injEq] at hstep
          exact hstep.1.symm
      subst hr
      simp only [runEvents, hstep] at h
      simp only [List.cons_append, runEvents, hstep]
      exact ih g2 g1 h (fun e1 h1 => hk e1 (List.mem_cons_of_mem e h1))

end Halving

/-- C2, as the code behaves: from every finite positive `delta_time_scale`
there is a number n such that after n warp-out key-downs, and after every
larger number of them, the value is exactly 0.001. -/
theorem repeated_halving_reaches_floor {K : Type} [LinearOrderedField K] [Archimedean K]
    (sqrt : K → K)
    (Game_GetGameCoords : Game_Camera K → SDL_Window → Vector2D K → Option (Vector2D K))
    (g : Globals K) (d : K) (hd : g.game.delta_time_scale = Double.fin d)
    (hpos : 0 < d) (hfin : d < DBL_OVERFLOW) :
    ∃ n, ∀ m, n ≤ m →
      ∃ g1, runEvents sqrt Game_GetGameCoords g (List.replicate m warpOut) = some g1 ∧
        g1.game.delta_time_scale = Double.fin 0.001 := by
  obtain ⟨n, hn⟩ := pow_unbounded_of_one_lt (d * 500) (by norm_num : (1 : K) < 2)
  refine ⟨n + 1, fun m hm => ?_⟩
  exact warpOut_reaches_floor sqrt Game_GetGameCoords n g d hd hpos hfin (by linarith) m (by omega)

/-- Witness for C2 as amended: the start-up state, whose time scale is 1. -/
theorem repeated_halving_reaches_floor_witness :
    ∃ n, ∀ m, n ≤ m →
      ∃ g1, runEvents Real.sqrt screen_to_world (startState : Globals ℝ)
          (List.replicate m warpOut) = some g1 ∧
        g1.game.delta_time_scale = Double.fin 0.001 :=
  repeated_halving_reaches_floor Real.sqrt screen_to_world (startState : Globals ℝ) 1
    startState_time_scale (by norm_num)
    (lt_trans (by norm_num) (DBL_OVERFLOW_gt : (3 * 2 ^ 1022 : ℝ) < DBL_OVERFLOW))

/-- Counterexample to C2 as stated: 1024 warp-in key-downs take the start-up
state (time scale 1) to a state whose `delta_time_scale` is plus infinity, a
value above 0; from there every number of warp-out key-downs leaves it at plus
infinity, so 0.001 is never reached. -/
theorem repeated_halving_counterexample :
    ∃ g, runEvents Real.sqrt screen_to_world (startState : Globals ℝ)
        (List.replicate 1024 warpIn) = some g ∧
      g.game.delta_time_scale = Double.pinf ∧
      Double.lt (Double.fin 0) g.game.delta_time_scale = true ∧
      ∀ m, ∃ g1, runEvents Real.sqrt screen_to_world g (List.replicate m warpOut) = some g1 ∧
        g1.game.delta_time_scale = Double.pinf ∧
        g1.game.delta_time_scale ≠ Double.fin 0.001 := by
  obtain ⟨g0, hrun0, hd0, _, _⟩ :=
    warpIn_run Real.sqrt screen_to_world 1022 (startState : Globals ℝ) 1 startState_time_scale
      (by norm_num)
      (by
        have h : (3 * 2 ^ 1022 : ℝ) < DBL_OVERFLOW := DBL_OVERFLOW_gt
        have h2 : (1 : ℝ) * 2 ^ (1022 + 1) ≤ 3 * 2 ^ 1022 := by norm_num
        linarith)
  obtain ⟨g, hstep, hd, _, _⟩ := warpIn_step Real.sqrt screen_to_world g0
  have hinf : g.game.delta_time_scale = Double.pinf := by
    rw [hd, hd0]
    simp only [Double.mul]
    apply ofExact_pinf
    have h : (DBL_OVERFLOW : ℝ) ≤ 2 ^ 1024 := DBL_OVERFLOW_le
    have h2 : (2 : ℝ) ^ 1024 = 1 * 2 ^ (1022 + 1) * 2 := by norm_num
    linarith
  have hrun : runEvents Real.sqrt screen_to_world (startState : Globals ℝ)
      (List.replicate 1024 warpIn) = some g := by
    have happ := runEvents_append_continue Real.sqrt screen_to_world
      (List.replicate 1023 warpIn) [warpIn] (startState : Globals ℝ) g0 hrun0
      (fun e he => by rw [List.eq_of_mem_replicate he]; rfl)
    have hsplit : List.replicate 1024 (warpIn : SDL_Event ℝ)
        = List.replicate 1023 warpIn ++ [warpIn] := by
      rw [show (1024 : Nat) = 1023 + 1 from rfl, List.replicate_succ']
    rw [hsplit, happ]
    simp [runEvents, hstep]
  refine ⟨g, hrun, hinf, by rw [hinf]; rfl, fun m => ?_⟩
  obtain ⟨g1, hrun1, h1⟩ := warpOut_stays_infinite Real.sqrt screen_to_world m g hinf
  exact ⟨g1, hrun1, h1, by rw [h1]; simp⟩

/-! ## Warp factor shown in the overlay (C9) -/

theorem warpOut_step_shift {K : Type} [LinearOrderedField K] (sqrt : K → K)
    (Game_GetGameCoords : Game_Camera K → SDL_Window → Vector2D K → Option (Vector2D K))
    (g : Globals K)
    (hlt : Double.lt (Double.div g.game.delta_time_scale (Double.fin 2)) (Double.fin 0.001)
      = false) :
    ∃ g1, SDL_AppEvent sqrt Game_GetGameCoords g warpOut = some (SDL_APP_CONTINUE, g1) ∧
      g1.game.delta_time_scale = Double.div g.game.delta_time_scale (Double.fin 2) ∧
      g1.warp_factor = g.warp_factor >>> 1 := by
  refine ⟨_, rfl, ?_, ?_⟩
  · simp [onKeyDown, hlt]
  · simp [onKeyDown, hlt]

theorem warp_out_then_in {K : Type} [LinearOrderedField K] (sqrt : K → K)
    (Game_GetGameCoords : Game_Camera K → SDL_Window → Vector2D K → Option (Vector2D K))
    (g : Globals K)
    (h1 : g.game.delta_time_scale = Double.fin 1) (h2 : g.warp_factor = 1) :
    ∃ g1, runEvents sqrt Game_GetGameCoords g [warpOut, warpIn] = some g1 ∧
      g1.game.delta_time_scale = Double.fin 1 ∧ g1.warp_factor = 0 ∧
      g1.warp_buf = some "Time Warp: 0x" := by
  have hB : (3 * 2 ^ 1022 : K) < DBL_OVERFLOW := DBL_OVERFLOW_gt
  have hpos : (0 : K) < DBL_OVERFLOW := DBL_OVERFLOW_pos
  have hdiv : Double.div (Double.fin (1 : K)) (Double.fin 2) = Double.fin (1 / 2) := by
    simp only [Double.div, if_neg (two_ne_zero : (2 : K) ≠ 0)]
    exact ofExact_fin _ (by linarith [show (0 : K) < 1 / 2 by norm_num])
      (lt_trans (by norm_num) hB)
  have hlt : Double.lt (Double.div g.game.delta_time_scale (Double.fin 2)) (Double.fin 0.001)
      = false := by
    rw [h1, hdiv]
    simp only [Double.lt, decide_eq_false_iff_not]
    norm_num
  have hmul : Double.mul (Double.fin (1 / 2 : K)) (Double.fin 2) = Double.fin 1 := by
    simp only [Double.mul]
    have h : (1 / 2 : K) * 2 = 1 := by norm_num
    rw [h]
    exact ofExact_fin _ (by linarith) (lt_trans (by norm_num) hB)
  obtain ⟨g2, hstep2, hd2, hw2⟩ := warpOut_step_shift sqrt Game_GetGameCoords g hlt
  obtain ⟨g1, hstep1, hd1, hw1, hb1⟩ := warpIn_step sqrt Game_GetGameCoords g2
  have hw0 : g1.warp_factor = 0 := by
    rw [hw1, hw2, h2]; decide
  refine ⟨g1, by simp [runEvents, hstep2, hstep1], ?_, hw0, ?_⟩
  · rw [hd1, hd2, h1, hdiv, hmul]
  · rw [hb1, hw0]; decide

/-- C9 fails on the code: the start-up state has time scale 1 and warp factor
1; after one warp-out and one warp-in the time scale is 1 again but the warp
factor is 0 and the overlay reads "Time Warp: 0x"; after 32 warp-ins the time
scale is 2 ^ 32 while the 32-bit warp factor has wrapped to 0. -/
theorem warp_overlay_out_of_step :
    (startState : Globals ℝ).game.delta_time_scale = Double.fin 1 ∧
    (startState : Globals ℝ).warp_factor = 1 ∧
    (∃ g1, runEvents Real.sqrt screen_to_world (startState : Globals ℝ) [warpOut, warpIn]
        = some g1 ∧
      g1.game.delta_time_scale = Double.fin 1 ∧ g1.warp_factor = 0 ∧
      g1.warp_buf = some "Time Warp: 0x") ∧
    (∃ g1, runEvents Real.sqrt screen_to_world (startState : Globals ℝ)
        (List.replicate 32 warpIn) = some g1 ∧
      g1.game.delta_time_scale = Double.fin 4294967296 ∧ g1.warp_factor = 0 ∧
      g1.warp_buf = some "Time Warp: 0x") := by
  refine ⟨startState_time_scale, startState_warp_factor,
    warp_out_then_in Real.sqrt screen_to_world startState startState_time_scale
      startState_warp_factor, ?_⟩
  obtain ⟨g1, hrun, hd, hw, hb⟩ :=
    warpIn_run Real.sqrt screen_to_world 31 (startState : Globals ℝ) 1 startState_time_scale
      (by norm_num)
      (lt_trans (by norm_num) (DBL_OVERFLOW_gt : (3 * 2 ^ 1022 : ℝ) < DBL_OVERFLOW))
  have hw0 : g1.warp_factor = 0 := by
    rw [hw, startState_warp_factor]; decide
  refine ⟨g1, hrun, ?_, hw0, ?_⟩
  · rw [hd]; norm_num
  · rw [hb, hw0]; decide

/-! ## Zoom (C3) -/

section Zoom

variable {K : Type} [LinearOrderedField K]
variable (sqrt : K → K)
variable (Game_GetGameCoords : Game_Camera K → SDL_Window → Vector2D K → Option (Vector2D K))

theorem wheel_step (g : Globals K) (wheel_x wheel_y : K) :
    ∃ g1, SDL_AppEvent sqrt Game_GetGameCoords g (SDL_EVENT_MOUSE_WHEEL wheel_x wheel_y)
        = some (SDL_APP_CONTINUE, g1) ∧
      g1.game.cam.zoom =
        (if Double.lt (Double.add g.game.cam.zoom
              (Double.mul (Double.mul (Double.fin wheel_y) g.game.cam.zoom) (Double.fin 0.5)))
            (Double.fin min_zoom) = true
          then Double.fin min_zoom
          else Double.add g.game.cam.zoom
            (Double.mul (Double.mul (Double.fin wheel_y) g.game.cam.zoom) (Double.fin 0.5))) :=
  ⟨_, rfl, rfl⟩

theorem clamp_atLeast (s : Double K) (hs : s ≠ Double.nan) :
    Double.atLeast 0.001
      (if Double.lt s (Double.fin min_zoom) = true then Double.fin min_zoom else s) := by
  cases s with
  | nan => exact absurd rfl hs
  | pinf => simp only [Double.lt]; norm_num; exact Or.inl rfl
  | ninf => simp only [Double.lt]; norm_num; exact Or.inr ⟨_, rfl, by norm_num [min_zoom]⟩
  | fin q =>
    simp only [Double.lt, decide_eq_true_eq, min_zoom]
    split_ifs with hc
    · exact Or.inr ⟨_, rfl, le_refl _⟩
    · exact Or.inr ⟨_, rfl, not_lt.mp hc⟩

theorem ofExact_ne_nan (q : K) : Double.ofExact q ≠ Double.nan := by
  rcases ofExact_cases q with ⟨_, h⟩ | ⟨_, h⟩ | ⟨_, _, h⟩ <;> rw [h] <;> simp

theorem wheel_sum_ne_nan (z w : K) :
    Double.add (Double.fin z)
      (Double.mul (Double.mul (Double.fin w) (Double.fin z)) (Double.fin 0.5)) ≠ Double.nan := by
  have h05 : (0 : K) < 0.5 := by norm_num
  simp only [Double.mul]
  rcases ofExact_cases (w * z) with ⟨_, h⟩ | ⟨_, h⟩ | ⟨_, _, h⟩ <;> rw [h]
  · simp [Double.mul, Double.add, h05]
  · simp [Double.mul, Double.add, h05]
  · simp only [Double.mul]
    rcases ofExact_cases (w * z * 0.5) with ⟨_, h'⟩ | ⟨_, h'⟩ | ⟨_, _, h'⟩ <;> rw [h']
    · simp [Double.add]
    · simp [Double.add]
    · simp only [Double.add]
      exact ofExact_ne_nan _

theorem wheel_step_exact (g : Globals K) (wheel_x wheel_y z : K)
    (hz : g.game.cam.zoom = Double.fin z)
    (h1 : -DBL_OVERFLOW < wheel_y * z) (h2 : wheel_y * z < DBL_OVERFLOW)
    (h3 : -DBL_OVERFLOW < z + wheel_y * z * 0.5) (h4 : z + wheel_y * z * 0.5 < DBL_OVERFLOW) :
    ∃ g1, SDL_AppEvent sqrt Game_GetGameCoords g (SDL_EVENT_MOUSE_WHEEL wheel_x wheel_y)
        = some (SDL_APP_CONTINUE, g1) ∧
      g1.game.cam.zoom = Double.fin (max (z + wheel_y * z * 0.5) 0.001) := by
  obtain ⟨g1, hstep, hzoom⟩ := wheel_step sqrt Game_GetGameCoords g wheel_x wheel_y
  refine ⟨g1, hstep, ?_⟩
  have hB : (0 : K) < DBL_OVERFLOW := DBL_OVERFLOW_pos
  have hm1 : Double.mul (Double.fin wheel_y) (Double.fin z) = Double.fin (wheel_y * z) := by
    simp only [Double.mul]; exact ofExact_fin _ h1 h2
  have hm2 : Double.mul (Double.fin (wheel_y * z)) (Double.fin 0.5)
      = Double.fin (wheel_y * z * 0.5) := by
    simp only [Double.mul]
    apply ofExact_fin
    · by_cases hs : 0 ≤ wheel_y * z
      · nlinarith
      · push_neg at hs; nlinarith
    · by_cases hs : 0 ≤ wheel_y * z
      · nlinarith
      · push_neg at hs; nlinarith
  have ha : Double.add (Double.fin z) (Double.fin (wheel_y * z * 0.5))
      = Double.fin (z + wheel_y * z * 0.5) := by
    simp only [Double.add]; exact ofExact_fin _ h3 h4
  rw [hzoom, hz, hm1, hm2, ha]
  simp only [Double.lt, decide_eq_true_eq, min_zoom]
  split_ifs with hc
  · rw [max_eq_right (le_of_lt hc)]
  · rw [max_eq_left (not_lt.mp hc)]

theorem wheelUp_run (n : Nat) :
    ∀ (g : Globals K) (z : K), g.game.cam.zoom = Double.fin z → 0.001 ≤ z →
      z * 2 ^ n < DBL_OVERFLOW →
      ∃ g1, runEvents sqrt Game_GetGameCoords g
          (List.replicate n (SDL_EVENT_MOUSE_WHEEL 0 2)) = some g1 ∧
        g1.game.cam.zoom = Double.fin (z * 2 ^ n) := by
  induction n with
  | zero =>
    intro g z hz _ _
    exact ⟨g, rfl, by rw [hz]; norm_num⟩
  | succ n ih =>
    intro g z hz hmin hB
    have hpos : (0 : K) < DBL_OVERFLOW := DBL_OVERFLOW_pos
    have hz0 : (0 : K) < z := lt_of_lt_of_le (by norm_num) hmin
    have hpow : (1 : K) ≤ 2 ^ n := one_le_pow₀ (by norm_num)
    have h2z : 2 * z < DBL_OVERFLOW := by
      rw [pow_succ] at hB
      nlinarith
    obtain ⟨g2, hstep, hz2⟩ := wheel_step_exact sqrt Game_GetGameCoords g 0 2 z hz
      (by linarith) h2z (by linarith) (by linarith)
    have hz2' : g2.game.cam.zoom = Double.fin (z * 2) := by
      rw [hz2, max_eq_left (by linarith)]
      congr 1
      ring
    obtain ⟨g1, hrun, hz1⟩ := ih g2 (z * 2) hz2' (by linarith)
      (by rw [pow_succ] at hB; linarith)
    refine ⟨g1, ?_, ?_⟩
    · rw [List.replicate_succ]
      simp only [runEvents, hstep]
      exact hrun
    · rw [hz1]; congr 1; ring

end Zoom

/-- C3, as the code behaves: a mouse-wheel event from a finite zoom z with
wheel delta `wheel_y` leaves the zoom at least 0.001 (it may become plus
infinity, never NaN), and the new zoom is `max (z + wheel_y * z * 0.5) 0.001`
whenever the product `wheel_y * z` and the sum `z + wheel_y * z * 0.5` stay
inside the double range. -/
theorem zoom_update_floor {K : Type} [LinearOrderedField K] (sqrt : K → K)
    (Game_GetGameCoords : Game_Camera K → SDL_Window → Vector2D K → Option (Vector2D K))
    (g : Globals K) (wheel_x wheel_y z : K) (hz : g.game.cam.zoom = Double.fin z) :
    ∃ g1, SDL_AppEvent sqrt Game_GetGameCoords g (SDL_EVENT_MOUSE_WHEEL wheel_x wheel_y)
        = some (SDL_APP_CONTINUE, g1) ∧
      Double.atLeast 0.001 g1.game.cam.zoom ∧
      (-DBL_OVERFLOW < wheel_y * z ∧ wheel_y * z < DBL_OVERFLOW ∧
        -DBL_OVERFLOW < z + wheel_y * z * 0.5 ∧ z + wheel_y * z * 0.5 < DBL_OVERFLOW →
        g1.game.cam.zoom = Double.fin (max (z + wheel_y * z * 0.5) 0.001)) := by
  obtain ⟨g1, hstep, hzoom⟩ := wheel_step sqrt Game_GetGameCoords g wheel_x wheel_y
  refine ⟨g1, hstep, ?_, ?_⟩
  · rw [hzoom, hz]
    exact clamp_atLeast _ (wheel_sum_ne_nan z wheel_y)
  · rintro ⟨h1, h2, h3, h4⟩
    obtain ⟨g2, hstep2, hz2⟩ :=
      wheel_step_exact sqrt Game_GetGameCoords g wheel_x wheel_y z hz h1 h2 h3 h4
    rw [hstep] at hstep2
    have hg : g1 = g2 := (Prod.mk.inj (Option.some.inj hstep2)).2
    rw [hg]
    exact hz2

/-- Witness for C3 as amended: the start-up state (zoom 0.5) and a wheel delta
of -3, which drives the sum below the floor. -/
theorem zoom_update_floor_witness :
    ∃ g1, SDL_AppEvent Real.sqrt screen_to_world (startState : Globals ℝ)
        (SDL_EVENT_MOUSE_WHEEL 0 (-3)) = some (SDL_APP_CONTINUE, g1) ∧
      Double.atLeast 0.001 g1.game.cam.zoom ∧
      g1.game.cam.zoom = Double.fin (max (0.5 + (-3) * 0.5 * 0.5) 0.001) := by
  have hB : (3 * 2 ^ 1022 : ℝ) < DBL_OVERFLOW := DBL_OVERFLOW_gt
  obtain ⟨g1, hstep, hfloor, hexact⟩ :=
    zoom_update_floor Real.sqrt screen_to_world (startState : Globals ℝ) 0 (-3) 0.5
      startState_zoom
  refine ⟨g1, hstep, hfloor, hexact ⟨?_, ?_, ?_, ?_⟩⟩
  · have : (-(3 * 2 ^ 1022) : ℝ) < -3 * 0.5 := by norm_num
    linarith
  · have : (-3 * 0.5 : ℝ) < 3 * 2 ^ 1022 := by norm_num
    linarith
  · have : (-(3 * 2 ^ 1022) : ℝ) < 0.5 + -3 * 0.5 * 0.5 := by norm_num
    linarith
  · have : (0.5 + -3 * 0.5 * 0.5 : ℝ) < 3 * 2 ^ 1022 := by norm_num
    linarith

/-- Counterexample to C3 as stated.  First: 1022 wheel events of delta 2, one
of delta 4 and one of delta 2 take the start-up zoom 0.5 to the finite zoom
3 * 2 ^ 1022; a wheel event of delta -1.5 then overflows the product and
leaves the zoom at 0.001, while `max (z + w * z * 0.5) 0.001` is 3 * 2 ^ 1020.
Second: 1025 wheel events of delta 2 take the zoom to plus infinity, and a
wheel event of delta -1 then makes it NaN, which is not at least 0.001. -/
theorem zoom_update_counterexample :
    (∃ g, runEvents Real.sqrt screen_to_world (startState : Globals ℝ)
        (List.replicate 1022 (SDL_EVENT_MOUSE_WHEEL 0 2) ++
          [SDL_EVENT_MOUSE_WHEEL 0 4, SDL_EVENT_MOUSE_WHEEL 0 2]) = some g ∧
      g.game.cam.zoom = Double.fin (3 * 2 ^ 1022) ∧
      ∃ g1, SDL_AppEvent Real.sqrt screen_to_world g (SDL_EVENT_MOUSE_WHEEL 0 (-1.5))
          = some (SDL_APP_CONTINUE, g1) ∧
        g1.game.cam.zoom = Double.fin 0.001 ∧
        max ((3 * 2 ^ 1022 : ℝ) + (-1.5) * (3 * 2 ^ 1022) * 0.5) 0.001 = 3 * 2 ^ 1020 ∧
        g1.game.cam.zoom ≠
          Double.fin (max ((3 * 2 ^ 1022 : ℝ) + (-1.5) * (3 * 2 ^ 1022) * 0.5) 0.001)) ∧
    (∃ g, runEvents Real.sqrt screen_to_world (startState : Globals ℝ)
        (List.replicate 1025 (SDL_EVENT_MOUSE_WHEEL 0 2)) = some g ∧
      g.game.cam.zoom = Double.pinf ∧
      ∃ g1, SDL_AppEvent Real.sqrt screen_to_world g (SDL_EVENT_MOUSE_WHEEL 0 (-1))
          = some (SDL_APP_CONTINUE, g1) ∧
        g1.game.cam.zoom = Double.nan ∧
        ¬ Double.atLeast 0.001 g1.game.cam.zoom) := by
  have hB : (3 * 2 ^ 1022 : ℝ) < DBL_OVERFLOW := DBL_OVERFLOW_gt
  have hB' : (DBL_OVERFLOW : ℝ) ≤ 2 ^ 1024 := DBL_OVERFLOW_le
  have hpos : (0 : ℝ) < DBL_OVERFLOW := DBL_OVERFLOW_pos
  have hwheel : ∀ e ∈ List.replicate 1022 (SDL_EVENT_MOUSE_WHEEL (0 : ℝ) 2),
      endsApp e = false := fun e he => by rw [List.eq_of_mem_replicate he]; rfl
  have hwheel' : ∀ e ∈ List.replicate 1024 (SDL_EVENT_MOUSE_WHEEL (0 : ℝ) 2),
      endsApp e = false := fun e he => by rw [List.eq_of_mem_replicate he]; rfl
  constructor
  · obtain ⟨ga, hruna, hza⟩ :=
      wheelUp_run Real.sqrt screen_to_world 1022 (startState : Globals ℝ) 0.5 startState_zoom
        (by norm_num) (by
          have : (0.5 : ℝ) * 2 ^ 1022 < 3 * 2 ^ 1022 := by norm_num
          linarith)
    obtain ⟨gb, hstepb, hzb⟩ :=
      wheel_step_exact Real.sqrt screen_to_world ga 0 4 (0.5 * 2 ^ 1022) hza
        (by have : (0 : ℝ) < 4 * (0.5 * 2 ^ 1022) := by norm_num
            linarith)
        (by have : (4 : ℝ) * (0.5 * 2 ^ 1022) < 3 * 2 ^ 1022 := by norm_num
            linarith)
        (by have : (0 : ℝ) < 0.5 * 2 ^ 1022 + 4 * (0.5 * 2 ^ 1022) * 0.5 := by norm_num
            linarith)
        (by have : (0.5 : ℝ) * 2 ^ 1022 + 4 * (0.5 * 2 ^ 1022) * 0.5 < 3 * 2 ^ 1022 := by
              norm_num
            linarith)
    have hzb' : gb.game.cam.zoom = Double.fin (3 * 2 ^ 1021) := by
      have hv : (0.5 : ℝ) * 2 ^ 1022 + 4 * (0.5 * 2 ^ 1022) * 0.5 = 3 * 2 ^ 1021 := by norm_num
      rw [hzb, hv, max_eq_left (by norm_num)]
    obtain ⟨g, hstepc, hzc⟩ :=
      wheel_step_exact Real.sqrt screen_to_world gb 0 2 (3 * 2 ^ 1021) hzb'
        (by have : (0 : ℝ) < 2 * (3 * 2 ^ 1021) := by norm_num
            linarith)
        (by have : (2 : ℝ) * (3 * 2 ^ 1021) = 3 * 2 ^ 1022 := by norm_num
            linarith)
        (by have : (0 : ℝ) < 3 * 2 ^ 1021 + 2 * (3 * 2 ^ 1021) * 0.5 := by norm_num
            linarith)
        (by have : (3 : ℝ) * 2 ^ 1021 + 2 * (3 * 2 ^ 1021) * 0.5 = 3 * 2 ^ 1022 := by norm_num
            linarith)
    have hzc' : g.game.cam.zoom = Double.fin (3 * 2 ^ 1022) := by
      have hv : (3 : ℝ) * 2 ^ 1021 + 2 * (3 * 2 ^ 1021) * 0.5 = 3 * 2 ^ 1022 := by norm_num
      rw [hzc, hv, max_eq_left (by norm_num)]
    have hrun : runEvents Real.sqrt screen_to_world (startState : Globals ℝ)
        (List.replicate 1022 (SDL_EVENT_MOUSE_WHEEL 0 2) ++
          [SDL_EVENT_MOUSE_WHEEL 0 4, SDL_EVENT_MOUSE_WHEEL 0 2]) = some g := by
      rw [runEvents_append_continue Real.sqrt screen_to_world _ _ _ ga hruna hwheel]
      simp [runEvents, hstepb, hstepc]
    refine ⟨g, hrun, hzc', ?_⟩
    obtain ⟨g1, hstep1, hz1⟩ := wheel_step Real.sqrt screen_to_world g 0 (-1.5)
    have hmax : max ((3 * 2 ^ 1022 : ℝ) + (-1.5) * (3 * 2 ^ 1022) * 0.5) 0.001
        = 3 * 2 ^ 1020 := by
      rw [max_eq_left (by norm_num)]
      norm_num
    have hz1' : g1.game.cam.zoom = Double.fin 0.001 := by
      rw [hz1, hzc']
      have hm : Double.mul (Double.fin (-1.5 : ℝ)) (Double.fin (3 * 2 ^ 1022)) = Double.ninf := by
        simp only [Double.mul]
        apply ofExact_ninf
        have : (-1.5 : ℝ) * (3 * 2 ^ 1022) ≤ -(2 ^ 1024) := by norm_num
        linarith
      rw [hm]
      simp [Double.mul, Double.add, Double.lt, min_zoom]
      norm_num
    refine ⟨g1, hstep1, hz1', hmax, ?_⟩
    rw [hz1', hmax]
    intro h
    have h' := Double.fin.inj h
    norm_num at h'
  · obtain ⟨ga, hruna, hza⟩ :=
      wheelUp_run Real.sqrt screen_to_world 1024 (startState : Globals ℝ) 0.5 startState_zoom
        (by norm_num) (by
          have : (0.5 : ℝ) * 2 ^ 1024 < 3 * 2 ^ 1022 := by norm_num
          linarith)
    obtain ⟨g, hstep, hz⟩ := wheel_step Real.sqrt screen_to_world ga 0 2
    have hzinf : g.game.cam.zoom = Double.pinf := by
      rw [hz, hza]
      have hm : Double.mul (Double.fin (2 : ℝ)) (Double.fin (0.5 * 2 ^ 1024)) = Double.pinf := by
        simp only [Double.mul]
        apply ofExact_pinf
        have : (2 : ℝ) ^ 1024 = 2 * (0.5 * 2 ^ 1024) := by norm_num
        linarith
      rw [hm]
      simp [Double.mul, Double.add, Double.lt]
      norm_num
    have hrun : runEvents Real.sqrt screen_to_world (startState : Globals ℝ)
        (List.replicate 1025 (SDL_EVENT_MOUSE_WHEEL 0 2)) = some g := by
      have hsplit : List.replicate 1025 (SDL_EVENT_MOUSE_WHEEL (0 : ℝ) 2)
          = List.replicate 1024 (SDL_EVENT_MOUSE_WHEEL 0 2) ++ [SDL_EVENT_MOUSE_WHEEL 0 2] := by
        rw [show (1025 : Nat) = 1024 + 1 from rfl, List.replicate_succ']
      rw [hsplit, runEvents_append_continue Real.sqrt screen_to_world _ _ _ ga hruna hwheel']
      simp [runEvents, hstep]
    refine ⟨g, hrun, hzinf, ?_⟩
    obtain ⟨g1, hstep1, hz1⟩ := wheel_step Real.sqrt screen_to_world g 0 (-1)
    have hnan : g1.game.cam.zoom = Double.nan := by
      rw [hz1, hzinf]
      simp [Double.mul, Double.add, Double.lt]
      norm_num
    refine ⟨g1, hstep1, hnan, ?_⟩
    rw [hnan]
    rintro (h | ⟨q, h, _⟩) <;> simp at h

/-! ## Spawning a body on a pointer click (C4, C5, C8) -/

section Spawn

variable {K : Type} [LinearOrderedField K]

theorem startState_earth_pos :
    (startState : Globals K).earth_ref.rbody.pos = { x := 640, y := 360 } := by
  have h1 : ((1280 : Int) >>> 1) = 640 := by decide
  have h2 : ((720 : Int) >>> 1) = 360 := by decide
  simp [startState, SDL_AppInit, Game_Object_CreateAt, h1, h2]

theorem startState_cam_pos : (startState : Globals K).game.cam.pos = { x := 0, y := 0 } := rfl

theorem startState_window : (startState : Globals K).game.window = { w := 1280, h := 720 } :=
  rfl

theorem screen_to_world_start (x y : K) :
    screen_to_world (startState : Globals K).game.cam (startState : Globals K).game.window
        { x := x, y := y }
      = some { x := (x - 640) * 2, y := (y - 360) * 2 } := by
  have hz : (startState : Globals K).game.cam.zoom = Double.fin 0.5 := startState_zoom
  have h05 : (0.5 : K) ≠ 0 := by norm_num
  simp only [screen_to_world, hz, if_neg h05, startState_cam_pos, startState_window]
  congr 1
  norm_num
  constructor <;> ring

theorem vector2D_diff_sq_pos (a b : Vector2D K) (h : a ≠ b) :
    0 < dot (Vector2D_Diff a b) (Vector2D_Diff a b) := by
  have hne : a.x - b.x ≠ 0 ∨ a.y - b.y ≠ 0 := by
    by_contra hc
    push_neg at hc
    apply h
    cases a; cases b
    simp only [Vector2D.mk.injEq]
    constructor <;> linarith [hc.1, hc.2]
  simp only [dot, Vector2D_Diff]
  rcases hne with hx | hy
  · have := mul_self_pos.mpr hx
    nlinarith [mul_self_nonneg (a.y - b.y)]
  · have := mul_self_pos.mpr hy
    nlinarith [mul_self_nonneg (a.x - b.x)]

theorem isSqrt_mul_self (sqrt : K → K) (hsqrt : IsSqrt sqrt) (k : K) (hk : 0 ≤ k) :
    sqrt (k * k) = k := by
  obtain ⟨h1, h2⟩ := hsqrt (k * k) (mul_self_nonneg k)
  exact (mul_self_inj h1 hk).mp h2

theorem isSqrt_ne_zero (sqrt : K → K) (hsqrt : IsSqrt sqrt) (q : K) (hq : 0 < q) :
    sqrt q ≠ 0 := by
  obtain ⟨_, h2⟩ := hsqrt q (le_of_lt hq)
  intro h0
  rw [h0, mul_zero] at h2
  exact absurd h2 (ne_of_lt hq)

theorem tangent_abs_eq (sqrt : K → K) (r : Vector2D K) :
    Vector2D_Abs sqrt { x := r.y, y := -r.x } = sqrt (dot r r) := by
  simp only [Vector2D_Abs, dot]
  congr 1
  ring

theorem vector2D_abs_eq (sqrt : K → K) (r : Vector2D K) :
    Vector2D_Abs sqrt r = sqrt (dot r r) := rfl

variable (sqrt : K → K)
variable (Game_GetGameCoords : Game_Camera K → SDL_Window → Vector2D K → Option (Vector2D K))

theorem onMouseButtonDown_defined (g : Globals K) (x y : K) (p : Vector2D K)
    (hp : Game_GetGameCoords g.game.cam g.game.window { x := x, y := y } = some p)
    (ha : Vector2D_Abs sqrt { x := (Vector2D_Diff p g.earth_ref.rbody.pos).y,
                              y := -(Vector2D_Diff p g.earth_ref.rbody.pos).x } ≠ 0)
    (hb : Vector2D_Abs sqrt (Vector2D_Diff p g.earth_ref.rbody.pos) ≠ 0) :
    onMouseButtonDown sqrt Game_GetGameCoords g x y =
      some (SDL_APP_CONTINUE, { g with game := Game_AddObject g.game (
        { rbody :=
            { mass := g.moon_ref.rbody.mass
              pos := p
              vel := Vector2D_Scaled
                (Vector2D_Scaled
                  { x := (Vector2D_Diff p g.earth_ref.rbody.pos).y,
                    y := -(Vector2D_Diff p g.earth_ref.rbody.pos).x }
                  (1 / Vector2D_Abs sqrt
                    { x := (Vector2D_Diff p g.earth_ref.rbody.pos).y,
                      y := -(Vector2D_Diff p g.earth_ref.rbody.pos).x }))
                (moon_init_speed *
                  (moon_dist / Vector2D_Abs sqrt (Vector2D_Diff p g.earth_ref.rbody.pos))) }
          material :=
            { type := Game_MaterialType.GAME_MATERIALTYPE_SPRITE
              texture := g.moon_ref.material.texture }
          size := g.moon_ref.size } : Game_Object K) }) := by
  simp only [onMouseButtonDown, hp, fdiv, if_neg ha, if_neg hb, Option.bind_eq_bind,
    Option.some_bind, Option.pure_def, Game_Object_Create]

/-- A click whose world position equals the primary body position makes the
handler divide by zero: the tangent vector has magnitude 0 and so has `r`. -/
theorem spawn_on_primary_divides_by_zero (hsqrt : sqrt 0 = 0) (g : Globals K) (x y : K)
    (hp : Game_GetGameCoords g.game.cam g.game.window { x := x, y := y }
      = some g.earth_ref.rbody.pos) :
    Vector2D_Abs sqrt
        { x := (Vector2D_Diff g.earth_ref.rbody.pos g.earth_ref.rbody.pos).y,
          y := -(Vector2D_Diff g.earth_ref.rbody.pos g.earth_ref.rbody.pos).x } = 0 ∧
    Vector2D_Abs sqrt (Vector2D_Diff g.earth_ref.rbody.pos g.earth_ref.rbody.pos) = 0 ∧
    SDL_AppEvent sqrt Game_GetGameCoords g (SDL_EVENT_MOUSE_BUTTON_DOWN x y) = none := by
  have ha : Vector2D_Abs sqrt
      { x := (Vector2D_Diff g.earth_ref.rbody.pos g.earth_ref.rbody.pos).y,
        y := -(Vector2D_Diff g.earth_ref.rbody.pos g.earth_ref.rbody.pos).x } = 0 := by
    simp [Vector2D_Abs, Vector2D_Diff, hsqrt]
  have hb : Vector2D_Abs sqrt (Vector2D_Diff g.earth_ref.rbody.pos g.earth_ref.rbody.pos)
      = 0 := by
    simp [Vector2D_Abs, Vector2D_Diff, hsqrt]
  refine ⟨ha, hb, ?_⟩
  simp only [SDL_AppEvent, onMouseButtonDown, hp, fdiv, ha, if_true, Option.bind_eq_bind,
    Option.some_bind, Option.none_bind]

end Spawn

/-- C5: for every click whose world position p differs from the primary body
position, the handler spawns a body at exactly p whose velocity is non-zero
and has dot product 0 with the vector `r` from the primary body to p.  Of the
square root only `sqrt q ≠ 0` for `q > 0` is used. -/
theorem spawn_velocity_perpendicular {K : Type} [LinearOrderedField K] (sqrt : K → K)
    (Game_GetGameCoords : Game_Camera K → SDL_Window → Vector2D K → Option (Vector2D K))
    (g : Globals K) (x y : K) (p : Vector2D K)
    (hsqrt : ∀ q : K, 0 < q → sqrt q ≠ 0)
    (hp : Game_GetGameCoords g.game.cam g.game.window { x := x, y := y } = some p)
    (hne : p ≠ g.earth_ref.rbody.pos) :
    ∃ obj, SDL_AppEvent sqrt Game_GetGameCoords g (SDL_EVENT_MOUSE_BUTTON_DOWN x y)
        = some (SDL_APP_CONTINUE, { g with game := Game_AddObject g.game obj }) ∧
      obj.rbody.pos = p ∧
      dot obj.rbody.vel (Vector2D_Diff p g.earth_ref.rbody.pos) = 0 ∧
      obj.rbody.vel ≠ { x := 0, y := 0 } := by
  have hpos : 0 < dot (Vector2D_Diff p g.earth_ref.rbody.pos)
      (Vector2D_Diff p g.earth_ref.rbody.pos) := vector2D_diff_sq_pos _ _ hne
  have hb : Vector2D_Abs sqrt (Vector2D_Diff p g.earth_ref.rbody.pos) ≠ 0 := by
    rw [vector2D_abs_eq]; exact hsqrt _ hpos
  have ha : Vector2D_Abs sqrt { x := (Vector2D_Diff p g.earth_ref.rbody.pos).y,
                                y := -(Vector2D_Diff p g.earth_ref.rbody.pos).x } ≠ 0 := by
    rw [tangent_abs_eq]; exact hsqrt _ hpos
  refine ⟨_, onMouseButtonDown_defined sqrt Game_GetGameCoords g x y p hp ha hb, rfl, ?_, ?_⟩
  · simp only [dot, Vector2D_Scaled]
    ring
  · intro hzero
    simp only [Vector2D_Scaled, Vector2D.mk.injEq, moon_init_speed, moon_dist] at hzero
    obtain ⟨h1, h2⟩ := hzero
    have hk : (1 / Vector2D_Abs sqrt { x := (Vector2D_Diff p g.earth_ref.rbody.pos).y,
                                       y := -(Vector2D_Diff p g.earth_ref.rbody.pos).x }) *
        (0.0001 * (400 / Vector2D_Abs sqrt (Vector2D_Diff p g.earth_ref.rbody.pos))) ≠ 0 := by
      have h3 : (400 : K) / Vector2D_Abs sqrt (Vector2D_Diff p g.earth_ref.rbody.pos) ≠ 0 :=
        div_ne_zero (by norm_num) hb
      exact mul_ne_zero (one_div_ne_zero ha) (mul_ne_zero (by norm_num) h3)
    have hy : (Vector2D_Diff p g.earth_ref.rbody.pos).y = 0 := by
      rw [mul_assoc] at h1
      rcases mul_eq_zero.mp h1 with h | h
      · exact h
      · exact absurd h hk
    have hx : (Vector2D_Diff p g.earth_ref.rbody.pos).x = 0 := by
      rw [mul_assoc] at h2
      rcases mul_eq_zero.mp h2 with h | h
      · exact neg_eq_zero.mp h
      · exact absurd h hk
    simp only [dot, hx, hy, mul_zero, add_zero, lt_self_iff_false] at hpos

/-- Witness for C5: in the start-up state a click at screen (963, 544) has
world position (646, 368), away from the earth at (640, 360); the square root
is the one of the real numbers. -/
theorem spawn_velocity_perpendicular_witness :
    ∃ obj, SDL_AppEvent Real.sqrt screen_to_world (startState : Globals ℝ)
        (SDL_EVENT_MOUSE_BUTTON_DOWN 963 544)
        = some (SDL_APP_CONTINUE,
            { (startState : Globals ℝ) with
              game := Game_AddObject (startState : Globals ℝ).game obj }) ∧
      obj.rbody.pos = { x := 646, y := 368 } ∧
      dot obj.rbody.vel
        (Vector2D_Diff { x := 646, y := 368 } (startState : Globals ℝ).earth_ref.rbody.pos) = 0 ∧
      obj.rbody.vel ≠ { x := 0, y := 0 } :=
  spawn_velocity_perpendicular Real.sqrt screen_to_world (startState : Globals ℝ) 963 544
    { x := 646, y := 368 } (fun _ hq => (Real.sqrt_pos.mpr hq).ne')
    (by rw [screen_to_world_start]; norm_num)
    (by rw [startState_earth_pos]; norm_num)

/-- C4: with the square root of the real numbers, for every click whose world
position p differs from the primary body position, the distance d from the
primary body to p (d > 0, d * d = r . r, d the magnitude of r) is such that
the handler spawns a body whose velocity has magnitude
`moon_init_speed * (moon_dist / d)`, that is 0.0001 * 400 / d. -/
theorem spawn_speed {K : Type} [LinearOrderedField K] (sqrt : K → K)
    (Game_GetGameCoords : Game_Camera K → SDL_Window → Vector2D K → Option (Vector2D K))
    (g : Globals K) (x y : K) (p : Vector2D K)
    (hsqrt : IsSqrt sqrt)
    (hp : Game_GetGameCoords g.game.cam g.game.window { x := x, y := y } = some p)
    (hne : p ≠ g.earth_ref.rbody.pos) :
    ∃ d, 0 < d ∧
      d * d = dot (Vector2D_Diff p g.earth_ref.rbody.pos)
        (Vector2D_Diff p g.earth_ref.rbody.pos) ∧
      Vector2D_Abs sqrt (Vector2D_Diff p g.earth_ref.rbody.pos) = d ∧
      ∃ obj, SDL_AppEvent sqrt Game_GetGameCoords g (SDL_EVENT_MOUSE_BUTTON_DOWN x y)
          = some (SDL_APP_CONTINUE, { g with game := Game_AddObject g.game obj }) ∧
        Vector2D_Abs sqrt obj.rbody.vel = moon_init_speed * (moon_dist / d) ∧
        Vector2D_Abs sqrt obj.rbody.vel = 0.0001 * 400 / d := by
  have hpos : 0 < dot (Vector2D_Diff p g.earth_ref.rbody.pos)
      (Vector2D_Diff p g.earth_ref.rbody.pos) := vector2D_diff_sq_pos _ _ hne
  obtain ⟨hd0, hdd⟩ := hsqrt _ (le_of_lt hpos)
  have hdne := isSqrt_ne_zero sqrt hsqrt _ hpos
  have hd : 0 < sqrt (dot (Vector2D_Diff p g.earth_ref.rbody.pos)
      (Vector2D_Diff p g.earth_ref.rbody.pos)) := lt_of_le_of_ne hd0 (Ne.symm hdne)
  have hb : Vector2D_Abs sqrt (Vector2D_Diff p g.earth_ref.rbody.pos)
      = sqrt (dot (Vector2D_Diff p g.earth_ref.rbody.pos)
          (Vector2D_Diff p g.earth_ref.rbody.pos)) := vector2D_abs_eq sqrt _
  have ha : Vector2D_Abs sqrt { x := (Vector2D_Diff p g.earth_ref.rbody.pos).y,
                                y := -(Vector2D_Diff p g.earth_ref.rbody.pos).x }
      = sqrt (dot (Vector2D_Diff p g.earth_ref.rbody.pos)
          (Vector2D_Diff p g.earth_ref.rbody.pos)) := tangent_abs_eq sqrt _
  refine ⟨sqrt (dot (Vector2D_Diff p g.earth_ref.rbody.pos)
      (Vector2D_Diff p g.earth_ref.rbody.pos)), hd, hdd, hb, ?_⟩
  generalize sqrt (dot (Vector2D_Diff p g.earth_ref.rbody.pos)
      (Vector2D_Diff p g.earth_ref.rbody.pos)) = d at hd hdd hdne ha hb
  have hspeed : Vector2D_Abs sqrt
      (Vector2D_Scaled
        (Vector2D_Scaled
          { x := (Vector2D_Diff p g.earth_ref.rbody.pos).y,
            y := -(Vector2D_Diff p g.earth_ref.rbody.pos).x } (1 / d))
        (moon_init_speed * (moon_dist / d))) = moon_init_speed * (moon_dist / d) := by
    have hk : (0 : K) ≤ moon_init_speed * (moon_dist / d) := by
      simp only [moon_init_speed, moon_dist]
      positivity
    have hsq : (Vector2D_Diff p g.earth_ref.rbody.pos).y * (1 / d) *
          (moon_init_speed * (moon_dist / d)) *
          ((Vector2D_Diff p g.earth_ref.rbody.pos).y * (1 / d) *
            (moon_init_speed * (moon_dist / d))) +
        -(Vector2D_Diff p g.earth_ref.rbody.pos).x * (1 / d) *
          (moon_init_speed * (moon_dist / d)) *
          (-(Vector2D_Diff p g.earth_ref.rbody.pos).x * (1 / d) *
            (moon_init_speed * (moon_dist / d))) =
        moon_init_speed * (moon_dist / d) * (moon_init_speed * (moon_dist / d)) := by
      simp only [dot] at hdd
      field_simp
      linear_combination
        (-(moon_init_speed * moon_dist) ^ 2 * d ^ 2) * hdd
    simp only [Vector2D_Abs, Vector2D_Scaled]
    rw [hsq]
    exact isSqrt_mul_self sqrt hsqrt _ hk
  refine ⟨_, onMouseButtonDown_defined sqrt Game_GetGameCoords g x y p hp
    (by rw [ha]; exact hdne) (by rw [hb]; exact hdne), ?_, ?_⟩
  · simp only [ha, hb]
    exact hspeed
  · simp only [ha, hb]
    rw [hspeed]
    simp only [moon_init_speed, moon_dist]
    ring

/-- Witness for C4: over the real numbers with their square root, in the
start-up state a click at screen (964, 542) has world position (648, 364), at
r = (8, 4) from the earth: an irrational distance. -/
theorem spawn_speed_witness :
    ∃ d : ℝ, 0 < d ∧
      d * d = dot (Vector2D_Diff ({ x := 648, y := 364 } : Vector2D ℝ)
          (startState : Globals ℝ).earth_ref.rbody.pos)
        (Vector2D_Diff ({ x := 648, y := 364 } : Vector2D ℝ) (startState : Globals ℝ).earth_ref.rbody.pos) ∧
      Vector2D_Abs Real.sqrt (Vector2D_Diff ({ x := 648, y := 364 } : Vector2D ℝ)
        (startState : Globals ℝ).earth_ref.rbody.pos) = d ∧
      ∃ obj, SDL_AppEvent Real.sqrt screen_to_world (startState : Globals ℝ)
          (SDL_EVENT_MOUSE_BUTTON_DOWN 964 542)
          = some (SDL_APP_CONTINUE,
              { (startState : Globals ℝ) with
                game := Game_AddObject (startState : Globals ℝ).game obj }) ∧
        Vector2D_Abs Real.sqrt obj.rbody.vel = moon_init_speed * (moon_dist / d) ∧
        Vector2D_Abs Real.sqrt obj.rbody.vel = 0.0001 * 400 / d :=
  spawn_speed Real.sqrt screen_to_world (startState : Globals ℝ) 964 542
    { x := 648, y := 364 }
    (fun x hx => ⟨Real.sqrt_nonneg x, Real.mul_self_sqrt hx⟩)
    (by rw [screen_to_world_start]; norm_num)
    (by rw [startState_earth_pos]; norm_num)

/-- C8 fails on the code: in the start-up state a click at screen (960, 540)
has the world position of the earth, (640, 360); both divisors are 0 and the
handler divides by zero. -/
theorem spawn_on_primary_at_start :
    screen_to_world (startState : Globals ℝ).game.cam (startState : Globals ℝ).game.window
        { x := 960, y := 540 } = some (startState : Globals ℝ).earth_ref.rbody.pos ∧
    Vector2D_Diff (startState : Globals ℝ).earth_ref.rbody.pos
        (startState : Globals ℝ).earth_ref.rbody.pos = { x := 0, y := 0 } ∧
    fdiv 1 (Vector2D_Abs Real.sqrt
        { x := (Vector2D_Diff (startState : Globals ℝ).earth_ref.rbody.pos
                  (startState : Globals ℝ).earth_ref.rbody.pos).y,
          y := -(Vector2D_Diff (startState : Globals ℝ).earth_ref.rbody.pos
                  (startState : Globals ℝ).earth_ref.rbody.pos).x }) = none ∧
    fdiv (moon_dist : ℝ) (Vector2D_Abs Real.sqrt
        (Vector2D_Diff (startState : Globals ℝ).earth_ref.rbody.pos
          (startState : Globals ℝ).earth_ref.rbody.pos)) = none ∧
    SDL_AppEvent Real.sqrt screen_to_world (startState : Globals ℝ)
        (SDL_EVENT_MOUSE_BUTTON_DOWN 960 540) = none := by
  have hsame : screen_to_world (startState : Globals ℝ).game.cam
      (startState : Globals ℝ).game.window { x := 960, y := 540 }
      = some (startState : Globals ℝ).earth_ref.rbody.pos := by
    rw [screen_to_world_start, startState_earth_pos]; norm_num
  obtain ⟨ha, hb, hnone⟩ :=
    spawn_on_primary_divides_by_zero Real.sqrt screen_to_world Real.sqrt_zero
      (startState : Globals ℝ) 960 540 hsame
  refine ⟨hsame, ?_, ?_, ?_, hnone⟩
  · simp [Vector2D_Diff]
  · rw [ha]; simp [fdiv]
  · rw [hb]; simp [fdiv]

end OrbitalDemo
